import Mathlib

/-!
# Facecam: proctoring calibration flow

A shallow embedding of the calibration state machine of the repository
(`src/App.jsx`, `src/components/CalibrationBall.jsx`, `src/hooks/useFaceMesh.js`)
and theorems about it.

Conventions of the embedding.

* Finite JavaScript numbers are rationals and arithmetic on them is exact:
  rounding of IEEE doubles is idealised away.  The only non-finite values the
  modelled code can produce come from the two divisions of `calculateHeadPose`
  (by `faceWidth` and by `faceHeight`, both results of `Math.abs`, hence the
  positive zero when they vanish); they are kept as `JSNum.nan`,
  `JSNum.posInf` and `JSNum.negInf`.
* React state is an explicit record; every handler is a function on it.
  A `setTimeout` callback is a value in the list of pending timers, holding
  what its closure captured when it was created.
* Presentation state (`showMesh`, `isWebcamLoading`, the countdown of the
  calibration ball, `roll`, which needs `Math.atan2`) is left out.
-/

namespace Facecam

/-! ## Feature extractor (`useFaceMesh.js`) -/

/-- Head direction labels, the strings of `calculateHeadPose`. -/
inductive Direction where
  | CENTER
  | LEFT
  | RIGHT
  | UP
  | DOWN
deriving DecidableEq, Repr

/-- One normalised landmark point of the detector. -/
structure Landmark where
  x : ℚ
  y : ℚ
deriving DecidableEq, Repr

/-- Result of a JavaScript division of two finite numbers, possibly scaled. -/
inductive JSNum where
  | nan
  | negInf
  | fin (q : ℚ)
  | posInf
deriving DecidableEq, Repr

/-- JavaScript `a < c` for a finite right operand: false on `NaN`. -/
def JSNum.lt (a : JSNum) (c : ℚ) : Bool :=
  match a with
  | .nan => false
  | .negInf => true
  | .fin q => decide (q < c)
  | .posInf => false

/-- JavaScript `a > c` for a finite right operand: false on `NaN`. -/
def JSNum.gt (a : JSNum) (c : ℚ) : Bool :=
  match a with
  | .nan => false
  | .negInf => false
  | .fin q => decide (c < q)
  | .posInf => true

/-- JavaScript `a / b` for finite `a` and finite `b`, where a zero `b` is the
positive zero (it is a result of `Math.abs`). -/
def jsDiv (a b : ℚ) : JSNum :=
  if b = 0 then
    if a = 0 then .nan else if 0 < a then .posInf else .negInf
  else .fin (a / b)

/-- JavaScript `a * c` for a finite positive constant `c`. -/
def JSNum.scale (a : JSNum) (c : ℚ) : JSNum :=
  match a with
  | .nan => .nan
  | .negInf => .negInf
  | .fin q => .fin (q * c)
  | .posInf => .posInf

/-- The direction chain at the end of `calculateHeadPose`. -/
def classifyDirection (yaw pitch : JSNum) : Direction :=
  if yaw.lt (-15) then .LEFT
  else if yaw.gt 15 then .RIGHT
  else if pitch.lt (-15) then .UP
  else if pitch.gt 15 then .DOWN
  else .CENTER

/-- Head pose record returned by `calculateHeadPose` (without `roll`). -/
structure HeadPose where
  yaw : JSNum
  pitch : JSNum
  direction : Direction
deriving DecidableEq, Repr

/-- Transcription of `calculateHeadPose`: landmarks 1 (nose tip), 152 (chin),
33 and 263 (outer eye corners). -/
def calculateHeadPose (landmarks : Nat → Landmark) : HeadPose :=
  let noseTip := landmarks 1
  let chin := landmarks 152
  let leftEyeOuter := landmarks 33
  let rightEyeOuter := landmarks 263
  let faceWidth := |rightEyeOuter.x - leftEyeOuter.x|
  let noseCenterX := (leftEyeOuter.x + rightEyeOuter.x) / 2
  let yaw := (jsDiv (noseTip.x - noseCenterX) faceWidth).scale 100
  let faceHeight := |chin.y - ((leftEyeOuter.y + rightEyeOuter.y) / 2)|
  let expectedNoseY := (leftEyeOuter.y + rightEyeOuter.y) / 2 + faceHeight * (3 / 10)
  let pitch := (jsDiv (noseTip.y - expectedNoseY) faceHeight).scale 100
  { yaw := yaw, pitch := pitch, direction := classifyDirection yaw pitch }

/-- Continuous gaze position returned by `calculateGaze`: the midpoint of the
iris centres, landmarks 468 and 473. -/
structure Gaze where
  gazeX : ℚ
  gazeY : ℚ
deriving DecidableEq, Repr

/-- Transcription of the `gazeX`, `gazeY` part of `calculateGaze`. -/
def calculateGaze (landmarks : Nat → Landmark) : Gaze :=
  let leftIris := landmarks 468
  let rightIris := landmarks 473
  { gazeX := (leftIris.x + rightIris.x) / 2, gazeY := (leftIris.y + rightIris.y) / 2 }

/-- Value of the `faceData` state (without the raw landmarks). -/
structure FaceData where
  headPose : HeadPose
  gaze : Gaze
deriving DecidableEq, Repr

/-- Transcription of the `onResults` callback: the detected-face count and the
face data of the first detected face, or `null` when there is none. -/
def onResults (multiFaceLandmarks : List (Nat → Landmark)) : Nat × Option FaceData :=
  let detectedFaces := multiFaceLandmarks.length
  match multiFaceLandmarks with
  | [] => (detectedFaces, none)
  | landmarks :: _ =>
    (detectedFaces,
      some { headPose := calculateHeadPose landmarks, gaze := calculateGaze landmarks })

/-! ## Gaze target sequencer (`CalibrationBall.jsx`) -/

/-- One entry of `CORNER_POSITIONS`. -/
structure Position where
  id : String
  x : Nat
  y : Nat
  label : String
deriving DecidableEq, Repr

/-- The five fixation targets, in the order they are shown. -/
def CORNER_POSITIONS : List Position :=
  [ { id := "center", x := 50, y := 50, label := "Center" },
    { id := "top-left", x := 10, y := 10, label := "Top Left" },
    { id := "top-right", x := 90, y := 10, label := "Top Right" },
    { id := "bottom-right", x := 90, y := 90, label := "Bottom Right" },
    { id := "bottom-left", x := 10, y := 90, label := "Bottom Left" } ]

/-- Dwell time per target, in milliseconds. -/
def DELAY_MS : Nat := 5000

/-- One collected gaze sample. -/
structure Sample where
  x : ℚ
  y : ℚ
deriving DecidableEq, Repr

/-- The rectangle handed to `onComplete`. -/
structure Bounds where
  minX : ℚ
  maxX : ℚ
  minY : ℚ
  maxY : ℚ
deriving DecidableEq, Repr

/-- A JavaScript object with string keys, as the list of its entries in
insertion order. -/
abbrev SampleStore := List (String × List Sample)

/-- Property read `obj[key]`, `none` for `undefined`. -/
def SampleStore.get (obj : SampleStore) (key : String) : Option (List Sample) :=
  match obj with
  | [] => none
  | (k, v) :: rest => if k = key then some v else SampleStore.get rest key

/-- The object spread with one computed key: an existing key keeps its place and
gets the new value, a new key goes last. -/
def SampleStore.set (obj : SampleStore) (key : String) (value : List Sample) : SampleStore :=
  match obj with
  | [] => [(key, value)]
  | (k, v) :: rest =>
    if k = key then (k, value) :: rest else (k, v) :: SampleStore.set rest key value

/-- Flattened `Object.values(obj)`. -/
def SampleStore.values (obj : SampleStore) : List Sample :=
  (obj.map Prod.snd).flatten

/-- State of a mounted `CalibrationBall`: the `currentIndex` state and the
`gazeSamplesRef` ref. -/
structure CalibrationBall where
  currentIndex : Nat
  gazeSamplesRef : SampleStore
deriving DecidableEq, Repr

/-- A freshly mounted component: index 0, no samples. -/
def CalibrationBall.mount : CalibrationBall :=
  { currentIndex := 0, gazeSamplesRef := [] }

/-- The `id` of `CORNER_POSITIONS[currentIndex]`.  The index never leaves
`0..4` (see `dwellTimer`); outside that range the render would throw, and the
model returns the empty key. -/
def CalibrationBall.currentPositionId (b : CalibrationBall) : String :=
  match CORNER_POSITIONS.get? b.currentIndex with
  | some p => p.id
  | none => ""

/-- Body of the sample-collecting effect, run with the props `gazeX`, `gazeY`
(`none` for `undefined`). -/
def CalibrationBall.collectSample (b : CalibrationBall) (gazeX gazeY : Option ℚ) :
    CalibrationBall :=
  match gazeX, gazeY with
  | some gx, some gy =>
    let samples := (b.gazeSamplesRef.get b.currentPositionId).getD []
    { b with gazeSamplesRef :=
        b.gazeSamplesRef.set b.currentPositionId (samples ++ [{ x := gx, y := gy }]) }
  | _, _ => b

/-- JavaScript `Math.min(...xs)` on a non-empty list (the only call site is
guarded by `allSamples.length > 0`; the empty list gives 0 here). -/
def mathMin (xs : List ℚ) : ℚ :=
  match xs with
  | [] => 0
  | x :: rest => rest.foldl min x

/-- JavaScript `Math.max(...xs)` on a non-empty list (same guard). -/
def mathMax (xs : List ℚ) : ℚ :=
  match xs with
  | [] => 0
  | x :: rest => rest.foldl max x

/-- The bounds computation in the last branch of the dwell timer: `none` is the
`null` report. -/
def computeBounds (allSamples : List Sample) : Option Bounds :=
  if allSamples.length > 0 then
    let xValues := allSamples.map (fun s => s.x)
    let yValues := allSamples.map (fun s => s.y)
    some { minX := mathMin xValues, maxX := mathMax xValues,
           minY := mathMin yValues, maxY := mathMax yValues }
  else none

/-- Callback of the dwell timer: the new component state and, when the last
target was showing, the argument passed to `onComplete`. -/
def CalibrationBall.dwellTimer (b : CalibrationBall) :
    CalibrationBall × Option (Option Bounds) :=
  if b.currentIndex < CORNER_POSITIONS.length - 1 then
    ({ b with currentIndex := b.currentIndex + 1 }, none)
  else
    (b, some (computeBounds b.gazeSamplesRef.values))

/-- What can happen to a mounted sequencer: a run of the collecting effect with
the current props, or the dwell timer firing. -/
inductive BallEvent where
  | collect (gazeX gazeY : Option ℚ)
  | dwell
deriving DecidableEq, Repr

/-- One event on the sequencer state (the report of a dwell is read off
`dwellTimer` separately). -/
def CalibrationBall.handle (b : CalibrationBall) (e : BallEvent) : CalibrationBall :=
  match e with
  | .collect gazeX gazeY => b.collectSample gazeX gazeY
  | .dwell => b.dwellTimer.1

/-- A sequence of events on the sequencer state. -/
def CalibrationBall.run (b : CalibrationBall) (es : List BallEvent) : CalibrationBall :=
  es.foldl CalibrationBall.handle b

/-! ## Calibration session (`App.jsx`) -/

/-- The four status strings of a step. -/
inductive Status where
  | pending
  | checking
  | passed
  | failed
deriving DecidableEq, Repr

/-- Entry of `stepStatus` for steps 1, 2 and 4. -/
structure StepInfo where
  status : Status
  error : Option String
deriving DecidableEq, Repr

/-- The `directions` object of step 3. -/
structure Directions where
  LEFT : Bool
  RIGHT : Bool
  UP : Bool
  DOWN : Bool
deriving DecidableEq, Repr

/-- Entry of `stepStatus` for step 3. -/
structure Step3Info where
  status : Status
  directions : Directions
deriving DecidableEq, Repr

/-- The `stepStatus` state, keys 1 to 4. -/
structure StepStatus where
  step1 : StepInfo
  step2 : StepInfo
  step3 : Step3Info
  step4 : StepInfo
deriving DecidableEq, Repr

/-- The constant `DIRECTIONS`. -/
def DIRECTIONS : List Direction := [.LEFT, .RIGHT, .UP, .DOWN]

/-- Property read `directions[dir]`; the key `CENTER` does not exist and reads
as falsy. -/
def Directions.get (d : Directions) (dir : Direction) : Bool :=
  match dir with
  | .LEFT => d.LEFT
  | .RIGHT => d.RIGHT
  | .UP => d.UP
  | .DOWN => d.DOWN
  | .CENTER => false

/-- The spread with `[dir]: true`.  The only call site is guarded by
`DIRECTIONS.includes(dir)`, so `CENTER` is never written. -/
def Directions.setTrue (d : Directions) (dir : Direction) : Directions :=
  match dir with
  | .LEFT => { d with LEFT := true }
  | .RIGHT => { d with RIGHT := true }
  | .UP => { d with UP := true }
  | .DOWN => { d with DOWN := true }
  | .CENTER => d

/-- Read of `stepStatus[n]?.status`, `none` for `undefined`. -/
def StepStatus.statusAt (ss : StepStatus) (n : Nat) : Option Status :=
  match n with
  | 1 => some ss.step1.status
  | 2 => some ss.step2.status
  | 3 => some ss.step3.status
  | 4 => some ss.step4.status
  | _ => none

/-- A pending callback of `setTimeout(..., 2000)` with the value its closure
captured: `faceData` for `runStep1`, `faceCount` for `runStep2`. -/
inductive Timer where
  | step1 (faceData : Option FaceData)
  | step2 (faceCount : Nat)
deriving DecidableEq, Repr

/-- State of the `App` component together with the hook outputs it reads, the
pending check timers and the sequencer component when it is mounted. -/
structure App where
  calibrationStep : Nat
  stepStatus : StepStatus
  gazeBounds : Option Bounds
  isOutOfBounds : Bool
  calibrationComplete : Bool
  isFullscreen : Bool
  fullscreenViolation : Bool
  violationCount : Nat
  faceData : Option FaceData
  faceCount : Nat
  timers : List Timer
  ball : Option CalibrationBall
deriving DecidableEq, Repr

/-- The initial values of all `useState` calls; nothing pending or mounted. -/
def App.init : App :=
  { calibrationStep := 0
    stepStatus :=
      { step1 := { status := .pending, error := none }
        step2 := { status := .pending, error := none }
        step3 := { status := .pending,
                   directions := { LEFT := false, RIGHT := false, UP := false, DOWN := false } }
        step4 := { status := .pending, error := none } }
    gazeBounds := none
    isOutOfBounds := false
    calibrationComplete := false
    isFullscreen := false
    fullscreenViolation := false
    violationCount := 0
    faceData := none
    faceCount := 0
    timers := []
    ball := none }

/-- Transcription of `handleFullscreenChange`, given the value computed for
`isCurrentlyFullscreen`. -/
def handleFullscreenChange (s : App) (isCurrentlyFullscreen : Bool) : App :=
  let s1 := { s with isFullscreen := isCurrentlyFullscreen }
  if !isCurrentlyFullscreen && decide (s.calibrationStep > 0) && !s.calibrationComplete then
    { s1 with fullscreenViolation := true, violationCount := s1.violationCount + 1 }
  else s1

/-- State update of `handleReturnToFullscreen`.  The request made by
`enterFullscreen` reaches the state only through the change notification it
causes, which is an event of its own. -/
def handleReturnToFullscreen (s : App) : App :=
  { s with fullscreenViolation := false }

/-- Transcription of `runStep1`: status `checking`, and a timer whose closure
holds the `faceData` of the render that created `runStep1`. -/
def runStep1 (s : App) : App :=
  { s with
    stepStatus := { s.stepStatus with step1 := { s.stepStatus.step1 with status := .checking } }
    timers := s.timers ++ [Timer.step1 s.faceData] }

/-- Transcription of `runStep2`: status `checking`, and a timer whose closure
holds the `faceCount` of the render that created `runStep2`. -/
def runStep2 (s : App) : App :=
  { s with
    stepStatus := { s.stepStatus with step2 := { s.stepStatus.step2 with status := .checking } }
    timers := s.timers ++ [Timer.step2 s.faceCount] }

/-- Callback of a check timer. -/
def Timer.fire (t : Timer) (ss : StepStatus) : StepStatus :=
  match t with
  | .step1 faceData =>
    if faceData.isSome then
      { ss with step1 := { ss.step1 with status := .passed } }
    else
      { ss with step1 := { ss.step1 with status := .failed, error := some "No face detected" } }
  | .step2 faceCount =>
    if faceCount = 1 then
      { ss with step2 := { ss.step2 with status := .passed } }
    else
      { ss with step2 := { ss.step2 with
          status := .failed, error := some ("Detected " ++ toString faceCount ++ " faces") } }

/-- The oldest pending check timer fires (all have the same delay). -/
def checkTimeout (s : App) : App :=
  match s.timers with
  | [] => s
  | t :: rest => { s with stepStatus := t.fire s.stepStatus, timers := rest }

/-- Transcription of `handleGazeCalibrationComplete`; `none` is `null`. -/
def handleGazeCalibrationComplete (s : App) (bounds : Option Bounds) : App :=
  match bounds with
  | some b =>
    { s with
      gazeBounds := some b
      stepStatus := { s.stepStatus with step4 := { s.stepStatus.step4 with status := .passed } } }
  | none =>
    { s with
      stepStatus := { s.stepStatus with
        step4 := { s.stepStatus.step4 with status := .failed, error := some "No gaze data" } } }

/-- Transcription of `handleButtonClick` (the fullscreen request of the first
branch acts through its change notification only). -/
def handleButtonClick (s : App) : App :=
  if s.calibrationStep = 0 then
    runStep1 { s with calibrationStep := 1 }
  else if s.stepStatus.statusAt s.calibrationStep = some .passed then
    if s.calibrationStep < 4 then
      let nextStep := s.calibrationStep + 1
      let s1 := { s with calibrationStep := nextStep }
      let s2 := if nextStep = 2 then runStep2 s1 else s1
      if nextStep = 4 then
        { s2 with stepStatus :=
            { s2.stepStatus with step4 := { s2.stepStatus.step4 with status := .checking } } }
      else s2
    else
      { s with calibrationComplete := true }
  else s

/-- Transcription of `handleRetry`. -/
def handleRetry (s : App) : App :=
  let s1 := if s.calibrationStep = 1 then runStep1 s else s
  if s.calibrationStep = 2 then runStep2 s1 else s1

/-! ### Effects -/

/-- Body of the effect "monitor head directions". -/
def step3DirectionEffect (s : App) : App :=
  if s.calibrationStep = 3 then
    match s.faceData with
    | some fd =>
      let dir := fd.headPose.direction
      if DIRECTIONS.contains dir && !s.stepStatus.step3.directions.get dir then
        { s with stepStatus := { s.stepStatus with
            step3 := { s.stepStatus.step3 with
              directions := s.stepStatus.step3.directions.setTrue dir } } }
      else s
    | none => s
  else s

/-- Body of the effect "check if step 3 is complete". -/
def step3CompleteEffect (s : App) : App :=
  if s.calibrationStep = 3 then
    let allDone := DIRECTIONS.all (fun d => s.stepStatus.step3.directions.get d)
    if allDone && decide (s.stepStatus.step3.status ≠ .passed) then
      { s with stepStatus := { s.stepStatus with
          step3 := { s.stepStatus.step3 with status := .passed } } }
    else s
  else s

/-- Body of the effect "monitor gaze bounds after calibration". -/
def gazeMonitorEffect (s : App) : App :=
  if s.calibrationComplete then
    match s.gazeBounds, s.faceData with
    | some gazeBounds, some fd =>
      let gazeX := fd.gaze.gazeX
      let gazeY := fd.gaze.gazeY
      let margin : ℚ := 0.05
      let outOfBounds :=
        decide (gazeX < gazeBounds.minX - margin) ||
        decide (gazeX > gazeBounds.maxX + margin) ||
        decide (gazeY < gazeBounds.minY - margin) ||
        decide (gazeY > gazeBounds.maxY + margin)
      { s with isOutOfBounds := outOfBounds }
    | _, _ => s
  else s

/-- The prop `gazeX` handed to the sequencer: `faceData?.gaze?.gazeX`. -/
def App.gazeX (s : App) : Option ℚ :=
  s.faceData.map (fun fd => fd.gaze.gazeX)

/-- The prop `gazeY` handed to the sequencer: `faceData?.gaze?.gazeY`. -/
def App.gazeY (s : App) : Option ℚ :=
  s.faceData.map (fun fd => fd.gaze.gazeY)

/-- The condition under which `App` renders `CalibrationBall`. -/
def App.ballMounted (s : App) : Bool :=
  decide (s.calibrationStep = 4) && decide (s.stepStatus.step4.status = .checking) &&
    !s.fullscreenViolation

/-- Rendering of the sequencer after a state change from `prev` to `s`: unmount
when the condition fails, mount a fresh component (its collecting effect runs
once) when it newly holds, and otherwise re-run the collecting effect if one of
the props `gazeX`, `gazeY` changed. -/
def renderBall (prev s : App) : App :=
  if s.ballMounted then
    match s.ball with
    | none => { s with ball := some (CalibrationBall.mount.collectSample s.gazeX s.gazeY) }
    | some b =>
      if s.gazeX ≠ prev.gazeX ∨ s.gazeY ≠ prev.gazeY then
        { s with ball := some (b.collectSample s.gazeX s.gazeY) }
      else s
  else { s with ball := none }

/-- The dwell timer of the mounted sequencer fires: either the index advances
(the collecting effect re-runs for the new target) or the result is handed to
`handleGazeCalibrationComplete`. -/
def dwellTimeout (s : App) : App :=
  match s.ball with
  | none => s
  | some b =>
    match b.dwellTimer with
    | (b1, none) => { s with ball := some (b1.collectSample s.gazeX s.gazeY) }
    | (b1, some bounds) => handleGazeCalibrationComplete { s with ball := some b1 } bounds

/-- All effects of `App` after a state change from `prev` to `s`. -/
def effects (prev s : App) : App :=
  renderBall prev (gazeMonitorEffect (step3CompleteEffect (step3DirectionEffect s)))

/-- The events of a session. -/
inductive Event where
  | fullscreenChange (isCurrentlyFullscreen : Bool)
  | returnToFullscreen
  | buttonClick
  | retry
  | checkTimeout
  | faceResults (faceCount : Nat) (faceData : Option FaceData)
  | dwellTimeout
deriving DecidableEq, Repr

/-- The handler of an event, before effects. -/
def handle (s : App) (e : Event) : App :=
  match e with
  | .fullscreenChange b => handleFullscreenChange s b
  | .returnToFullscreen => handleReturnToFullscreen s
  | .buttonClick => handleButtonClick s
  | .retry => handleRetry s
  | .checkTimeout => checkTimeout s
  | .faceResults faceCount faceData => { s with faceCount := faceCount, faceData := faceData }
  | .dwellTimeout => dwellTimeout s

/-- One event of the session: its handler, then the effects. -/
def step (s : App) (e : Event) : App :=
  effects s (handle s e)

/-- A sequence of events. -/
def run (s : App) (es : List Event) : App :=
  es.foldl step s

/-! ## The main button (`getButtonConfig` and the `onClick` binding) -/

/-- Landmarks of a face turned to the right: yaw 25, pitch 20. -/
def landmarksRight : Nat → Landmark := fun i =>
  if i = 1 then { x := 11 / 20, y := 13 / 20 }
  else if i = 152 then { x := 1 / 2, y := 9 / 10 }
  else if i = 33 then { x := 2 / 5, y := 2 / 5 }
  else if i = 263 then { x := 3 / 5, y := 2 / 5 }
  else { x := 1 / 2, y := 1 / 2 }

/-- The bounds of the gaze monitor example. -/
def exampleBounds : Bounds :=
  { minX := 0.3, maxX := 0.6, minY := 0.3, maxY := 0.6 }

/-- A session after calibration completed with `exampleBounds`. -/
def calibratedState : App :=
  { App.init with
    calibrationStep := 4
    stepStatus :=
      { step1 := { status := .passed, error := none }
        step2 := { status := .passed, error := none }
        step3 := { status := .passed,
                   directions := { LEFT := true, RIGHT := true, UP := true, DOWN := true } }
        step4 := { status := .passed, error := none } }
    gazeBounds := some exampleBounds
    calibrationComplete := true
    isFullscreen := true }

/-- Five samples while the first target shows, four dwell timers, three samples
while the last target shows. -/
def pooledExample : List BallEvent :=
  [ .collect (some 0.50) (some 0.50), .collect (some 0.48) (some 0.52),
    .collect (some 0.55) (some 0.47), .collect (some 0.20) (some 0.51),
    .collect (some 0.51) (some 0.90),
    .dwell, .dwell, .dwell, .dwell,
    .collect (some 0.80) (some 0.30), .collect (some 0.60) (some 0.10),
    .collect (some 0.45) (some 0.60) ]

/-- Four dwell timers and no defined gaze: the last target shows and nothing was
collected. -/
def emptyExample : List BallEvent :=
  [ .collect none none, .dwell, .dwell, .dwell, .dwell ]

/-- Face data with the given head direction (gaze at the centre). -/
def faceDir (d : Direction) : FaceData :=
  { headPose := { yaw := .fin 0, pitch := .fin 0, direction := d },
    gaze := { gazeX := 0.5, gazeY := 0.5 } }

/-- A session that passes steps 1 to 3, loses the face, enters step 4 and lets
four dwell timers elapse: the last target shows and no sample was collected. -/
def noGazeSession : List Event :=
  [ .faceResults 1 (some (faceDir .CENTER)), .buttonClick, .checkTimeout, .buttonClick,
    .checkTimeout, .buttonClick,
    .faceResults 1 (some (faceDir .LEFT)), .faceResults 1 (some (faceDir .RIGHT)),
    .faceResults 1 (some (faceDir .UP)), .faceResults 1 (some (faceDir .DOWN)),
    .faceResults 0 none, .buttonClick,
    .dwellTimeout, .dwellTimeout, .dwellTimeout, .dwellTimeout ]

/-- Invariant of the reachable session states: a mounted sequencer implies its
mount condition, and stored bounds imply that step 4 is the active step and has
passed. -/
def App.inv (s : App) : Prop :=
  (s.ball.isSome = true → s.ballMounted = true) ∧
  (s.gazeBounds.isSome = true →
    s.calibrationStep = 4 ∧ s.stepStatus.step4.status = .passed)

/-- The session right after the start button: step 1 is being checked, so the
fullscreen proctor is armed. -/
def armedState : App :=
  step App.init .buttonClick

/-- The armed session after one exit from fullscreen. -/
def violatingState : App :=
  step armedState (.fullscreenChange false)

/-- A state on which the two step 3 effects have nothing left to do, as is the
case after every event. -/
def App.settled (s : App) : Prop :=
  step3CompleteEffect (step3DirectionEffect s) = s

/-- The state with the status of step 3 replaced. -/
def App.withStep3Status (s : App) (st : Status) : App :=
  { s with stepStatus := { s.stepStatus with step3 := { s.stepStatus.step3 with status := st } } }

/-- The step 3 entry of `stepStatus` as `useState` initialises it. -/
def step3Initial : Step3Info :=
  { status := .pending,
    directions := { LEFT := false, RIGHT := false, UP := false, DOWN := false } }

/-- The observation events for a list of detector results. -/
def observations (obs : List (Nat × Option FaceData)) : List Event :=
  obs.map (fun o => Event.faceResults o.1 o.2)

/-- A session at step 3 in which no direction has been seen yet. -/
def step3State : App :=
  { App.init with
    calibrationStep := 3
    stepStatus :=
      { step1 := { status := .passed, error := none }
        step2 := { status := .passed, error := none }
        step3 := step3Initial
        step4 := { status := .pending, error := none } }
    isFullscreen := true }

/-- A head sweep: down, centre, left, left again, no face, up, right. -/
def sweepExample : List (Nat × Option FaceData) :=
  [ (1, some (faceDir .DOWN)), (1, some (faceDir .CENTER)), (1, some (faceDir .LEFT)),
    (2, some (faceDir .LEFT)), (0, none), (1, some (faceDir .UP)),
    (1, some (faceDir .RIGHT)) ]

/-- A state the effects leave as it is, as is the case after every event. -/
def App.stable (s : App) : Prop :=
  effects s s = s

/-- The session at step 3 with all four directions seen and step 3 passed. -/
def step3PassedState : App :=
  run step3State (observations sweepExample)

/-- The session at step 4 after the sequencer reported bounds. -/
def step4PassedState : App :=
  { calibratedState with calibrationComplete := false }

/-- No face when the start button is clicked, a face before the timer fires. -/
def lateFaceSession : List Event :=
  [ .faceResults 0 none, .buttonClick, .faceResults 1 (some (faceDir .CENTER)),
    .checkTimeout ]

/-- A face when the start button is clicked, none when the timer fires. -/
def lostFaceSession : List Event :=
  [ .faceResults 1 (some (faceDir .CENTER)), .buttonClick, .faceResults 0 none,
    .checkTimeout ]

/-- Step 1 passes, the advance button is clicked while two faces are counted,
and one face is counted when the step 2 timer fires. -/
def lateSinglePersonSession : List Event :=
  [ .faceResults 1 (some (faceDir .CENTER)), .buttonClick, .checkTimeout,
    .faceResults 2 (some (faceDir .CENTER)), .buttonClick,
    .faceResults 1 (some (faceDir .CENTER)), .checkTimeout ]

/-- Step 1 fails, retry is clicked while there is still no face, and a face is
there when the timer of the retry fires. -/
def lateFaceRetrySession : List Event :=
  [ .faceResults 0 none, .buttonClick, .checkTimeout, .retry,
    .faceResults 1 (some (faceDir .CENTER)), .checkTimeout ]

/-- Three gaze samples. -/
def threeSamples : List Sample :=
  [ { x := 0.40, y := 0.50 }, { x := 0.35, y := 0.62 }, { x := 0.58, y := 0.33 } ]

/-- Face data with the given head direction and gaze position. -/
def faceGaze (d : Direction) (gazeX gazeY : ℚ) : FaceData :=
  { headPose := { yaw := .fin 0, pitch := .fin 0, direction := d },
    gaze := { gazeX := gazeX, gazeY := gazeY } }

/-- A session that passes steps 1 to 3 looking at (1, 1), enters step 4, and
reaches the third target with the gaze samples (1, 1), (0, 1), (0, 1), (0, 0),
(0, 0) collected. -/
def gazeSession : List Event :=
  [ .faceResults 1 (some (faceGaze .CENTER 1 1)), .buttonClick, .checkTimeout, .buttonClick,
    .checkTimeout, .buttonClick,
    .faceResults 1 (some (faceGaze .LEFT 1 1)), .faceResults 1 (some (faceGaze .RIGHT 1 1)),
    .faceResults 1 (some (faceGaze .UP 1 1)), .faceResults 1 (some (faceGaze .DOWN 1 1)),
    .buttonClick, .faceResults 1 (some (faceGaze .CENTER 0 1)), .dwellTimeout,
    .faceResults 1 (some (faceGaze .CENTER 0 0)), .dwellTimeout ]

set_option maxRecDepth 100000

/-! ### Head direction classification -/

/-- The direction chain, read off the four comparisons. -/
theorem classifyDirection_cases (yaw pitch : JSNum) :
    (yaw.lt (-15) = true → classifyDirection yaw pitch = .LEFT) ∧
    (yaw.lt (-15) = false → yaw.gt 15 = true → classifyDirection yaw pitch = .RIGHT) ∧
    (yaw.lt (-15) = false → yaw.gt 15 = false → pitch.lt (-15) = true →
      classifyDirection yaw pitch = .UP) ∧
    (yaw.lt (-15) = false → yaw.gt 15 = false → pitch.lt (-15) = false →
      pitch.gt 15 = true → classifyDirection yaw pitch = .DOWN) ∧
    (yaw.lt (-15) = false → yaw.gt 15 = false → pitch.lt (-15) = false →
      pitch.gt 15 = false → classifyDirection yaw pitch = .CENTER) := by
  unfold classifyDirection
  refine ⟨?_, ?_, ?_, ?_, ?_⟩ <;> intros <;> simp [*]

/-- A value above 15 is not below -15. -/
theorem JSNum.lt_false_of_gt (a : JSNum) (h : a.gt 15 = true) : a.lt (-15) = false := by
  cases a with
  | nan => rfl
  | negInf => simp [JSNum.gt] at h
  | posInf => rfl
  | fin q =>
    simp only [JSNum.gt, decide_eq_true_eq] at h
    simp only [JSNum.lt, decide_eq_false_iff_not, not_lt]
    linarith

/-- C1: for the yaw and pitch computed by `calculateHeadPose`, the direction is
LEFT if yaw < -15, RIGHT if yaw > 15, otherwise UP if pitch < -15, DOWN if
pitch > 15, otherwise CENTER; the values exactly -15 and 15 (for yaw or for
pitch) count as CENTER; and when yaw < -15 or yaw > 15 the direction is neither
UP nor DOWN, whatever the pitch. -/
theorem calculateHeadPose_direction (landmarks : Nat → Landmark) :
    (((calculateHeadPose landmarks).yaw.lt (-15) = true →
        (calculateHeadPose landmarks).direction = .LEFT) ∧
      ((calculateHeadPose landmarks).yaw.gt 15 = true →
        (calculateHeadPose landmarks).direction = .RIGHT) ∧
      ((calculateHeadPose landmarks).yaw.lt (-15) = false →
        (calculateHeadPose landmarks).yaw.gt 15 = false →
        (calculateHeadPose landmarks).pitch.lt (-15) = true →
        (calculateHeadPose landmarks).direction = .UP) ∧
      ((calculateHeadPose landmarks).yaw.lt (-15) = false →
        (calculateHeadPose landmarks).yaw.gt 15 = false →
        (calculateHeadPose landmarks).pitch.lt (-15) = false →
        (calculateHeadPose landmarks).pitch.gt 15 = true →
        (calculateHeadPose landmarks).direction = .DOWN) ∧
      ((calculateHeadPose landmarks).yaw.lt (-15) = false →
        (calculateHeadPose landmarks).yaw.gt 15 = false →
        (calculateHeadPose landmarks).pitch.lt (-15) = false →
        (calculateHeadPose landmarks).pitch.gt 15 = false →
        (calculateHeadPose landmarks).direction = .CENTER)) ∧
    (∀ y p : ℚ, (calculateHeadPose landmarks).yaw = .fin y →
        (calculateHeadPose landmarks).pitch = .fin p →
        (y = -15 ∨ y = 15) → -15 ≤ p → p ≤ 15 →
        (calculateHeadPose landmarks).direction = .CENTER) ∧
    (∀ y p : ℚ, (calculateHeadPose landmarks).yaw = .fin y →
        (calculateHeadPose landmarks).pitch = .fin p →
        -15 ≤ y → y ≤ 15 → (p = -15 ∨ p = 15) →
        (calculateHeadPose landmarks).direction = .CENTER) ∧
    (((calculateHeadPose landmarks).yaw.lt (-15) = true ∨
        (calculateHeadPose landmarks).yaw.gt 15 = true) →
      (calculateHeadPose landmarks).direction ≠ .UP ∧
      (calculateHeadPose landmarks).direction ≠ .DOWN) := by
  have hdir : (calculateHeadPose landmarks).direction =
      classifyDirection (calculateHeadPose landmarks).yaw (calculateHeadPose landmarks).pitch :=
    rfl
  obtain ⟨hL, hR, hU, hD, hC⟩ :=
    classifyDirection_cases (calculateHeadPose landmarks).yaw (calculateHeadPose landmarks).pitch
  rw [hdir]
  refine ⟨⟨hL, fun h => hR (JSNum.lt_false_of_gt _ h) h, hU, hD, hC⟩, ?_, ?_, ?_⟩
  · intro y p hy hp hy15 hp1 hp2
    rw [hy, hp] at hC ⊢
    apply hC <;> simp only [JSNum.lt, JSNum.gt, decide_eq_false_iff_not, not_lt]
    · rcases hy15 with rfl | rfl <;> norm_num
    · rcases hy15 with rfl | rfl <;> norm_num
    · exact hp1
    · exact hp2
  · intro y p hy hp hy1 hy2 hp15
    rw [hy, hp] at hC ⊢
    apply hC <;> simp only [JSNum.lt, JSNum.gt, decide_eq_false_iff_not, not_lt]
    · exact hy1
    · exact hy2
    · rcases hp15 with rfl | rfl <;> norm_num
    · rcases hp15 with rfl | rfl <;> norm_num
  · intro h
    rcases h with h | h
    · rw [hL h]; exact ⟨by decide, by decide⟩
    · rw [hR (JSNum.lt_false_of_gt _ h) h]; exact ⟨by decide, by decide⟩

/-- Witness for C1: a face with yaw 25 and pitch 20 is classified RIGHT, not
DOWN. -/
theorem calculateHeadPose_direction_witness :
    (calculateHeadPose landmarksRight).yaw = .fin 25 ∧
    (calculateHeadPose landmarksRight).pitch = .fin 20 ∧
    (calculateHeadPose landmarksRight).direction = .RIGHT ∧
    (calculateHeadPose landmarksRight).direction ≠ .DOWN := by
  have hy : (calculateHeadPose landmarksRight).yaw = .fin 25 := by
    norm_num [calculateHeadPose, landmarksRight, jsDiv, JSNum.scale, abs_of_pos]
  have hp : (calculateHeadPose landmarksRight).pitch = .fin 20 := by
    norm_num [calculateHeadPose, landmarksRight, jsDiv, JSNum.scale, abs_of_pos]
  have hgt : (calculateHeadPose landmarksRight).yaw.gt 15 = true := by
    rw [hy]; simp [JSNum.gt]; norm_num
  exact ⟨hy, hp, (calculateHeadPose_direction landmarksRight).1.2.1 hgt,
    ((calculateHeadPose_direction landmarksRight).2.2.2 (Or.inr hgt)).2⟩

/-! ### Shape of the effects -/

/-- The direction effect writes `stepStatus` only. -/
theorem step3DirectionEffect_eq (s : App) :
    ∃ ss, step3DirectionEffect s = { s with stepStatus := ss } := by
  obtain ⟨step, ss, gb, oob, cc, fs, fv, vc, fd, fc, tm, ball⟩ := s
  simp only [step3DirectionEffect]
  repeat' split
  all_goals exact ⟨_, rfl⟩

/-- The completion effect writes `stepStatus` only. -/
theorem step3CompleteEffect_eq (s : App) :
    ∃ ss, step3CompleteEffect s = { s with stepStatus := ss } := by
  obtain ⟨step, ss, gb, oob, cc, fs, fv, vc, fd, fc, tm, ball⟩ := s
  simp only [step3CompleteEffect]
  repeat' split
  all_goals exact ⟨_, rfl⟩

/-- The gaze monitor writes `isOutOfBounds` only. -/
theorem gazeMonitorEffect_eq (s : App) :
    ∃ b, gazeMonitorEffect s = { s with isOutOfBounds := b } := by
  obtain ⟨step, ss, gb, oob, cc, fs, fv, vc, fd, fc, tm, ball⟩ := s
  simp only [gazeMonitorEffect]
  repeat' split
  all_goals exact ⟨_, rfl⟩

/-- Rendering the sequencer writes `ball` only. -/
theorem renderBall_eq (prev s : App) :
    ∃ b, renderBall prev s = { s with ball := b } := by
  obtain ⟨step, ss, gb, oob, cc, fs, fv, vc, fd, fc, tm, ball⟩ := s
  simp only [renderBall]
  repeat' split
  all_goals exact ⟨_, rfl⟩

/-- The gaze monitor does not read `stepStatus`. -/
theorem gazeMonitorEffect_stepStatus (s : App) (ss : StepStatus) :
    gazeMonitorEffect { s with stepStatus := ss } =
      { gazeMonitorEffect s with stepStatus := ss } := by
  obtain ⟨step, ss0, gb, oob, cc, fs, fv, vc, fd, fc, tm, ball⟩ := s
  simp only [gazeMonitorEffect]
  repeat' split
  all_goals rfl

/-- The effects leave the fields they do not own alone. -/
theorem effects_frame (prev s : App) :
    (effects prev s).calibrationStep = s.calibrationStep ∧
    (effects prev s).gazeBounds = s.gazeBounds ∧
    (effects prev s).calibrationComplete = s.calibrationComplete ∧
    (effects prev s).isFullscreen = s.isFullscreen ∧
    (effects prev s).fullscreenViolation = s.fullscreenViolation ∧
    (effects prev s).violationCount = s.violationCount ∧
    (effects prev s).faceData = s.faceData ∧
    (effects prev s).faceCount = s.faceCount ∧
    (effects prev s).timers = s.timers := by
  unfold effects
  obtain ⟨ss1, h1⟩ := step3DirectionEffect_eq s
  obtain ⟨ss2, h2⟩ := step3CompleteEffect_eq (step3DirectionEffect s)
  obtain ⟨b3, h3⟩ := gazeMonitorEffect_eq (step3CompleteEffect (step3DirectionEffect s))
  obtain ⟨b4, h4⟩ :=
    renderBall_eq prev (gazeMonitorEffect (step3CompleteEffect (step3DirectionEffect s)))
  rw [h4, h3, h2, h1]
  exact ⟨rfl, rfl, rfl, rfl, rfl, rfl, rfl, rfl, rfl⟩

/-- The out-of-bounds flag after the effects is the one the gaze monitor
computes on the state the handler left. -/
theorem effects_isOutOfBounds (prev s : App) :
    (effects prev s).isOutOfBounds = (gazeMonitorEffect s).isOutOfBounds := by
  unfold effects
  obtain ⟨ss1, h1⟩ := step3DirectionEffect_eq s
  obtain ⟨ss2, h2⟩ := step3CompleteEffect_eq (step3DirectionEffect s)
  obtain ⟨b4, h4⟩ :=
    renderBall_eq prev (gazeMonitorEffect (step3CompleteEffect (step3DirectionEffect s)))
  rw [h4, h2, h1]
  show (gazeMonitorEffect { s with stepStatus := ss2 }).isOutOfBounds = _
  rw [gazeMonitorEffect_stepStatus]

/-! ### Gaze monitor -/

/-- The flag the gaze monitor computes when it is active. -/
theorem gazeMonitorEffect_active (s : App) (b : Bounds) (fd : FaceData)
    (hc : s.calibrationComplete = true) (hb : s.gazeBounds = some b)
    (hf : s.faceData = some fd) :
    ((gazeMonitorEffect s).isOutOfBounds = true ↔
      (fd.gaze.gazeX < b.minX - 0.05 ∨ fd.gaze.gazeX > b.maxX + 0.05 ∨
        fd.gaze.gazeY < b.minY - 0.05 ∨ fd.gaze.gazeY > b.maxY + 0.05)) := by
  obtain ⟨step, ss0, gb, oob, cc, fs, fv, vc, fd0, fc, tm, ball⟩ := s
  simp only at hc hb hf
  subst hc hb hf
  simp only [gazeMonitorEffect, if_true, Bool.or_eq_true, decide_eq_true_eq, or_assoc]

/-- The fold computing `Math.min` returns a lower bound that is attained. -/
theorem foldl_min_spec (rest : List ℚ) (a : ℚ) :
    rest.foldl min a ≤ a ∧ (∀ x ∈ rest, rest.foldl min a ≤ x) ∧
      (rest.foldl min a = a ∨ rest.foldl min a ∈ rest) := by
  induction rest generalizing a with
  | nil => simp
  | cons r rest ih =>
    obtain ⟨h1, h2, h3⟩ := ih (min a r)
    simp only [List.foldl_cons, List.mem_cons]
    refine ⟨le_trans h1 (min_le_left a r), ?_, ?_⟩
    · intro x hx
      rcases hx with rfl | hx
      · exact le_trans h1 (min_le_right a x)
      · exact h2 x hx
    · rcases h3 with h3 | h3
      · rcases min_choice a r with hc | hc
        · left; rw [h3, hc]
        · right; left; rw [h3, hc]
      · right; right; exact h3

/-- The fold computing `Math.max` returns an upper bound that is attained. -/
theorem foldl_max_spec (rest : List ℚ) (a : ℚ) :
    a ≤ rest.foldl max a ∧ (∀ x ∈ rest, x ≤ rest.foldl max a) ∧
      (rest.foldl max a = a ∨ rest.foldl max a ∈ rest) := by
  induction rest generalizing a with
  | nil => simp
  | cons r rest ih =>
    obtain ⟨h1, h2, h3⟩ := ih (max a r)
    simp only [List.foldl_cons, List.mem_cons]
    refine ⟨le_trans (le_max_left a r) h1, ?_, ?_⟩
    · intro x hx
      rcases hx with rfl | hx
      · exact le_trans (le_max_right a x) h1
      · exact h2 x hx
    · rcases h3 with h3 | h3
      · rcases max_choice a r with hc | hc
        · left; rw [h3, hc]
        · right; left; rw [h3, hc]
      · right; right; exact h3

/-- On a non-empty list `mathMin` is the least element. -/
theorem mathMin_spec (xs : List ℚ) (hne : xs ≠ []) :
    mathMin xs ∈ xs ∧ ∀ x ∈ xs, mathMin xs ≤ x := by
  cases xs with
  | nil => exact absurd rfl hne
  | cons a rest =>
    obtain ⟨h1, h2, h3⟩ := foldl_min_spec rest a
    simp only [mathMin, List.mem_cons]
    refine ⟨?_, ?_⟩
    · rcases h3 with h3 | h3
      · left; exact h3
      · right; exact h3
    · intro x hx
      rcases hx with rfl | hx
      · exact h1
      · exact h2 x hx

/-- On a non-empty list `mathMax` is the greatest element. -/
theorem mathMax_spec (xs : List ℚ) (hne : xs ≠ []) :
    mathMax xs ∈ xs ∧ ∀ x ∈ xs, x ≤ mathMax xs := by
  cases xs with
  | nil => exact absurd rfl hne
  | cons a rest =>
    obtain ⟨h1, h2, h3⟩ := foldl_max_spec rest a
    simp only [mathMax, List.mem_cons]
    refine ⟨?_, ?_⟩
    · rcases h3 with h3 | h3
      · left; exact h3
      · right; exact h3
    · intro x hx
      rcases hx with rfl | hx
      · exact h1
      · exact h2 x hx

/-- Appending one sample under a key adds exactly that sample to the pooled
values of the store, whatever the key. -/
theorem SampleStore.mem_values_set (obj : SampleStore) (key : String) (smp t : Sample) :
    t ∈ SampleStore.values (obj.set key ((obj.get key).getD [] ++ [smp])) ↔
      t ∈ SampleStore.values obj ∨ t = smp := by
  induction obj with
  | nil => simp [SampleStore.set, SampleStore.get, SampleStore.values]
  | cons kv rest ih =>
    obtain ⟨k, v⟩ := kv
    by_cases hk : k = key
    · simp only [SampleStore.set, SampleStore.get, hk, if_true, Option.getD_some,
        SampleStore.values, List.map_cons, List.flatten_cons, List.mem_append,
        List.mem_singleton]
      tauto
    · simp only [SampleStore.values] at ih
      simp only [SampleStore.set, SampleStore.get, hk, if_false,
        SampleStore.values, List.map_cons, List.flatten_cons, List.mem_append, ih]
      tauto

/-- The pooled samples after one event. -/
theorem CalibrationBall.mem_values_handle (b : CalibrationBall) (e : BallEvent) (t : Sample) :
    t ∈ (b.handle e).gazeSamplesRef.values ↔
      t ∈ b.gazeSamplesRef.values ∨ e = .collect (some t.x) (some t.y) := by
  cases e with
  | dwell =>
    simp only [CalibrationBall.handle, CalibrationBall.dwellTimer]
    split <;> simp
  | collect gx gy =>
    cases gx with
    | none => simp [CalibrationBall.handle, CalibrationBall.collectSample]
    | some x =>
      cases gy with
      | none => simp [CalibrationBall.handle, CalibrationBall.collectSample]
      | some y =>
        simp only [CalibrationBall.handle, CalibrationBall.collectSample,
          SampleStore.mem_values_set, BallEvent.collect.injEq, Option.some.injEq]
        constructor
        · rintro (h | h)
          · exact Or.inl h
          · right; rw [h]; exact ⟨rfl, rfl⟩
        · rintro (h | ⟨h1, h2⟩)
          · exact Or.inl h
          · right; cases t; simp only at h1 h2; subst h1 h2; rfl

/-- The pooled samples after a sequence of events are the samples already
stored together with those the collecting effect was run with. -/
theorem CalibrationBall.mem_values_run (es : List BallEvent) (b : CalibrationBall)
    (t : Sample) :
    t ∈ (b.run es).gazeSamplesRef.values ↔
      t ∈ b.gazeSamplesRef.values ∨ BallEvent.collect (some t.x) (some t.y) ∈ es := by
  induction es generalizing b with
  | nil => simp [CalibrationBall.run]
  | cons e es ih =>
    have h := ih (b.handle e)
    simp only [CalibrationBall.run, List.foldl_cons] at h ⊢
    rw [h, CalibrationBall.mem_values_handle, List.mem_cons]
    constructor
    · rintro ((h1 | h1) | h1)
      · exact Or.inl h1
      · exact Or.inr (Or.inl h1.symm)
      · exact Or.inr (Or.inr h1)
    · rintro (h1 | h1 | h1)
      · exact Or.inl (Or.inl h1)
      · exact Or.inl (Or.inr h1.symm)
      · exact Or.inr h1

/-- The target index never leaves `0..4`. -/
theorem CalibrationBall.run_currentIndex_le (es : List BallEvent) (b : CalibrationBall)
    (hb : b.currentIndex ≤ 4) : (b.run es).currentIndex ≤ 4 := by
  induction es generalizing b with
  | nil => exact hb
  | cons e es ih =>
    simp only [CalibrationBall.run, List.foldl_cons]
    apply ih
    cases e with
    | collect gx gy =>
      simp only [CalibrationBall.handle, CalibrationBall.collectSample]
      split <;> exact hb
    | dwell =>
      simp only [CalibrationBall.handle, CalibrationBall.dwellTimer, CORNER_POSITIONS,
        List.length_cons, List.length_nil]
      split
      · simp only; omega
      · exact hb

/-- The bounds computed from a non-empty list of samples are its extremes. -/
theorem computeBounds_spec (allSamples : List Sample) (hne : allSamples ≠ []) :
    ∃ b, computeBounds allSamples = some b ∧
      (∀ t ∈ allSamples, b.minX ≤ t.x ∧ t.x ≤ b.maxX ∧ b.minY ≤ t.y ∧ t.y ≤ b.maxY) ∧
      (∃ t ∈ allSamples, b.minX = t.x) ∧ (∃ t ∈ allSamples, b.maxX = t.x) ∧
      (∃ t ∈ allSamples, b.minY = t.y) ∧ (∃ t ∈ allSamples, b.maxY = t.y) := by
  have hlen : allSamples.length > 0 := List.length_pos.mpr hne
  have hx : allSamples.map (fun s => s.x) ≠ [] := by simpa using hne
  have hy : allSamples.map (fun s => s.y) ≠ [] := by simpa using hne
  obtain ⟨hminx, hminx2⟩ := mathMin_spec _ hx
  obtain ⟨hmaxx, hmaxx2⟩ := mathMax_spec _ hx
  obtain ⟨hminy, hminy2⟩ := mathMin_spec _ hy
  obtain ⟨hmaxy, hmaxy2⟩ := mathMax_spec _ hy
  refine ⟨{ minX := mathMin (allSamples.map (fun s => s.x)),
             maxX := mathMax (allSamples.map (fun s => s.x)),
             minY := mathMin (allSamples.map (fun s => s.y)),
             maxY := mathMax (allSamples.map (fun s => s.y)) },
    by simp only [computeBounds, hlen, if_true], ?_, ?_, ?_, ?_, ?_⟩
  · intro t ht
    exact ⟨hminx2 _ (List.mem_map_of_mem _ ht), hmaxx2 _ (List.mem_map_of_mem _ ht),
      hminy2 _ (List.mem_map_of_mem _ ht), hmaxy2 _ (List.mem_map_of_mem _ ht)⟩
  · obtain ⟨t, ht, he⟩ := List.mem_map.mp hminx
    exact ⟨t, ht, he.symm⟩
  · obtain ⟨t, ht, he⟩ := List.mem_map.mp hmaxx
    exact ⟨t, ht, he.symm⟩
  · obtain ⟨t, ht, he⟩ := List.mem_map.mp hminy
    exact ⟨t, ht, he.symm⟩
  · obtain ⟨t, ht, he⟩ := List.mem_map.mp hmaxy
    exact ⟨t, ht, he.symm⟩

/-- C3: when the dwell timer fires while the last target shows and at least one
sample was collected since the mount, `onComplete` receives bounds whose
minX/maxX are the least/greatest gazeX and whose minY/maxY are the
least/greatest gazeY over all samples the collecting effect recorded, whatever
target was showing when each was recorded (the dwell timers may be interleaved
with the samples in any way). -/
theorem dwellTimer_pooled_bounds (es : List BallEvent)
    (hlast : (CalibrationBall.mount.run es).currentIndex = CORNER_POSITIONS.length - 1)
    (hsome : ∃ x y, BallEvent.collect (some x) (some y) ∈ es) :
    ∃ b, (CalibrationBall.mount.run es).dwellTimer.2 = some (some b) ∧
      (∀ x y, BallEvent.collect (some x) (some y) ∈ es →
        b.minX ≤ x ∧ x ≤ b.maxX ∧ b.minY ≤ y ∧ y ≤ b.maxY) ∧
      (∃ x y, BallEvent.collect (some x) (some y) ∈ es ∧ b.minX = x) ∧
      (∃ x y, BallEvent.collect (some x) (some y) ∈ es ∧ b.maxX = x) ∧
      (∃ x y, BallEvent.collect (some x) (some y) ∈ es ∧ b.minY = y) ∧
      (∃ x y, BallEvent.collect (some x) (some y) ∈ es ∧ b.maxY = y) := by
  have hmem : ∀ t : Sample, t ∈ (CalibrationBall.mount.run es).gazeSamplesRef.values ↔
      BallEvent.collect (some t.x) (some t.y) ∈ es := by
    intro t
    rw [CalibrationBall.mem_values_run]
    simp [CalibrationBall.mount, SampleStore.values]
  have hne : (CalibrationBall.mount.run es).gazeSamplesRef.values ≠ [] := by
    obtain ⟨x, y, hxy⟩ := hsome
    exact List.ne_nil_of_mem ((hmem { x := x, y := y }).mpr hxy)
  obtain ⟨b, hb, hall, h1, h2, h3, h4⟩ := computeBounds_spec _ hne
  refine ⟨b, ?_, ?_, ?_, ?_, ?_, ?_⟩
  · simp only [CalibrationBall.dwellTimer, hlast, lt_irrefl, if_false, hb]
  · intro x y hxy
    exact hall { x := x, y := y } ((hmem _).mpr hxy)
  · obtain ⟨t, ht, he⟩ := h1
    exact ⟨t.x, t.y, (hmem t).mp ht, he⟩
  · obtain ⟨t, ht, he⟩ := h2
    exact ⟨t.x, t.y, (hmem t).mp ht, he⟩
  · obtain ⟨t, ht, he⟩ := h3
    exact ⟨t.x, t.y, (hmem t).mp ht, he⟩
  · obtain ⟨t, ht, he⟩ := h4
    exact ⟨t.x, t.y, (hmem t).mp ht, he⟩

/-- Witness for C3: five samples at the first target and three at the last give
the extremes of all eight. -/
theorem dwellTimer_pooled_bounds_witness :
    (CalibrationBall.mount.run pooledExample).dwellTimer.2 =
        some (some { minX := 0.20, maxX := 0.80, minY := 0.10, maxY := 0.90 }) ∧
    ∃ b, (CalibrationBall.mount.run pooledExample).dwellTimer.2 = some (some b) ∧
      (∀ x y, BallEvent.collect (some x) (some y) ∈ pooledExample →
        b.minX ≤ x ∧ x ≤ b.maxX ∧ b.minY ≤ y ∧ y ≤ b.maxY) ∧
      (∃ x y, BallEvent.collect (some x) (some y) ∈ pooledExample ∧ b.minX = x) ∧
      (∃ x y, BallEvent.collect (some x) (some y) ∈ pooledExample ∧ b.maxX = x) ∧
      (∃ x y, BallEvent.collect (some x) (some y) ∈ pooledExample ∧ b.minY = y) ∧
      (∃ x y, BallEvent.collect (some x) (some y) ∈ pooledExample ∧ b.maxY = y) := by
  refine ⟨?_, dwellTimer_pooled_bounds pooledExample rfl
    ⟨0.50, 0.50, by simp [pooledExample]⟩⟩
  have hi : (CalibrationBall.mount.run pooledExample).currentIndex = 4 := rfl
  have hv : (CalibrationBall.mount.run pooledExample).gazeSamplesRef.values =
      [ { x := 0.50, y := 0.50 }, { x := 0.48, y := 0.52 }, { x := 0.55, y := 0.47 },
        { x := 0.20, y := 0.51 }, { x := 0.51, y := 0.90 }, { x := 0.80, y := 0.30 },
        { x := 0.60, y := 0.10 }, { x := 0.45, y := 0.60 } ] := rfl
  simp only [CalibrationBall.dwellTimer, hi, hv]
  norm_num [CORNER_POSITIONS, computeBounds, mathMin, mathMax]

/-! ### Step 4 outcome -/

/-- The direction effect writes the step 3 entry only. -/
theorem step3DirectionEffect_step3 (s : App) :
    ∃ s3, step3DirectionEffect s =
      { s with stepStatus := { s.stepStatus with step3 := s3 } } := by
  obtain ⟨step, ⟨s1, s2, s3, s4⟩, gb, oob, cc, fs, fvn, vc, fd, fc, tm, ball⟩ := s
  simp only [step3DirectionEffect]
  repeat' split
  all_goals exact ⟨_, rfl⟩

/-- The completion effect writes the step 3 entry only. -/
theorem step3CompleteEffect_step3 (s : App) :
    ∃ s3, step3CompleteEffect s =
      { s with stepStatus := { s.stepStatus with step3 := s3 } } := by
  obtain ⟨step, ⟨s1, s2, s3, s4⟩, gb, oob, cc, fs, fvn, vc, fd, fc, tm, ball⟩ := s
  simp only [step3CompleteEffect]
  repeat' split
  all_goals exact ⟨_, rfl⟩

/-- Outside step 3 the two step 3 effects do nothing. -/
theorem step3Effects_off (s : App) (h : s.calibrationStep ≠ 3) :
    step3CompleteEffect (step3DirectionEffect s) = s := by
  have h1 : step3DirectionEffect s = s := by simp [step3DirectionEffect, h]
  rw [h1]
  simp [step3CompleteEffect, h]

/-- The effects change no entry of `stepStatus` other than step 3, and none at
all outside step 3. -/
theorem effects_stepStatus (prev s : App) :
    (effects prev s).stepStatus.step1 = s.stepStatus.step1 ∧
    (effects prev s).stepStatus.step2 = s.stepStatus.step2 ∧
    (effects prev s).stepStatus.step4 = s.stepStatus.step4 ∧
    (s.calibrationStep ≠ 3 → (effects prev s).stepStatus = s.stepStatus) := by
  unfold effects
  obtain ⟨b4, h4⟩ :=
    renderBall_eq prev (gazeMonitorEffect (step3CompleteEffect (step3DirectionEffect s)))
  obtain ⟨b3, h3⟩ := gazeMonitorEffect_eq (step3CompleteEffect (step3DirectionEffect s))
  rw [h4, h3]
  refine ⟨?_, ?_, ?_, ?_⟩
  · obtain ⟨x1, h1⟩ := step3DirectionEffect_step3 s
    obtain ⟨x2, h2⟩ := step3CompleteEffect_step3 (step3DirectionEffect s)
    rw [h2, h1]
  · obtain ⟨x1, h1⟩ := step3DirectionEffect_step3 s
    obtain ⟨x2, h2⟩ := step3CompleteEffect_step3 (step3DirectionEffect s)
    rw [h2, h1]
  · obtain ⟨x1, h1⟩ := step3DirectionEffect_step3 s
    obtain ⟨x2, h2⟩ := step3CompleteEffect_step3 (step3DirectionEffect s)
    rw [h2, h1]
  · intro h
    rw [step3Effects_off s h]

/-- After the effects a mounted sequencer satisfies the mount condition. -/
theorem effects_ball (prev s : App) :
    (effects prev s).ball.isSome = true → (effects prev s).ballMounted = true := by
  have hf := effects_frame prev s
  have hs := effects_stepStatus prev s
  have hm : (effects prev s).ballMounted =
      (gazeMonitorEffect (step3CompleteEffect (step3DirectionEffect s))).ballMounted := by
    obtain ⟨b4, h4⟩ :=
      renderBall_eq prev (gazeMonitorEffect (step3CompleteEffect (step3DirectionEffect s)))
    unfold effects
    rw [h4]
    rfl
  rw [hm]
  unfold effects renderBall
  split
  · intro _; assumption
  · intro h; simp at h

/-- Every handler keeps the second half of the invariant. -/
theorem handle_inv (s : App) (e : Event) (h : s.inv) :
    (handle s e).gazeBounds.isSome = true →
      (handle s e).calibrationStep = 4 ∧ (handle s e).stepStatus.step4.status = .passed := by
  obtain ⟨hball, hgb⟩ := h
  cases e with
  | fullscreenChange b =>
    simp only [handle, handleFullscreenChange]
    split <;> exact hgb
  | returnToFullscreen => exact hgb
  | buttonClick =>
    simp only [handle, handleButtonClick]
    split
    · intro hg
      have := (hgb hg).1
      omega
    · split
      · split
        · intro hg
          have hg2 : s.gazeBounds.isSome = true := by
            revert hg; split <;> (split <;> exact id)
          have := (hgb hg2).1
          omega
        · exact hgb
      · exact hgb
  | retry =>
    simp only [handle, handleRetry]
    split <;> split <;> exact hgb
  | checkTimeout =>
    simp only [handle, checkTimeout]
    split
    · exact hgb
    · rename_i t rest ht
      intro hg
      have := hgb hg
      refine ⟨this.1, ?_⟩
      cases t with
      | step1 fd => simp only [Timer.fire]; split <;> exact this.2
      | step2 n => simp only [Timer.fire]; split <;> exact this.2
  | faceResults n fd => exact hgb
  | dwellTimeout =>
    simp only [handle, dwellTimeout]
    split
    · exact hgb
    · rename_i b hb
      have hm := hball (by rw [hb]; rfl)
      simp only [App.ballMounted, Bool.and_eq_true, decide_eq_true_eq] at hm
      split
      · exact hgb
      · rename_i b1 bounds hd
        cases bounds with
        | none =>
          intro hg
          have := (hgb hg).2
          rw [hm.1.2] at this
          exact absurd this (by decide)
        | some bd =>
          intro _
          exact ⟨hm.1.1, rfl⟩

/-- One event keeps the invariant. -/
theorem step_inv (s : App) (e : Event) (h : s.inv) : (step s e).inv := by
  refine ⟨effects_ball s (handle s e), ?_⟩
  have hf := effects_frame s (handle s e)
  have hs := effects_stepStatus s (handle s e)
  unfold step
  rw [hf.1, hf.2.1, hs.2.2.1]
  exact handle_inv s e h

/-- Every state reached from the initial one satisfies the invariant. -/
theorem run_inv (es : List Event) (s : App) (h : s.inv) : (run s es).inv := by
  induction es generalizing s with
  | nil => exact h
  | cons e es ih => exact ih (step s e) (step_inv s e h)

/-- The initial state satisfies the invariant. -/
theorem init_inv : App.init.inv := by
  constructor <;> intro h <;> simp [App.init] at h

/-- The dwell timer at the last target hands `computeBounds` of the pooled
samples to the completion handler. -/
theorem dwellTimeout_last (s : App) (b : CalibrationBall) (hb : s.ball = some b)
    (hlast : b.currentIndex = CORNER_POSITIONS.length - 1) :
    dwellTimeout s =
      handleGazeCalibrationComplete s (computeBounds b.gazeSamplesRef.values) := by
  obtain ⟨step, ss, gb, oob, cc, fs, fvn, vc, fd, fc, tm, ball⟩ := s
  simp only at hb
  subst hb
  simp only [dwellTimeout, CalibrationBall.dwellTimer, hlast, lt_irrefl, if_false]

/-- C4: the sequencer reports null exactly when no gaze sample was collected
since the mount; on a null report the orchestrator sets step 4 to failed with
the error message "No gaze data" and leaves `gazeBounds` as it is, which in a
reachable session is null; on a non-null report it stores the bounds in
`gazeBounds` and sets step 4 to passed. -/
theorem step4_outcome :
    (∀ es : List BallEvent,
      (CalibrationBall.mount.run es).currentIndex = CORNER_POSITIONS.length - 1 →
      ((CalibrationBall.mount.run es).dwellTimer.2 = some none ↔
        ¬ ∃ x y, BallEvent.collect (some x) (some y) ∈ es)) ∧
    (∀ s : App,
      (handleGazeCalibrationComplete s none).stepStatus.step4.status = .failed ∧
      (handleGazeCalibrationComplete s none).stepStatus.step4.error = some "No gaze data" ∧
      (handleGazeCalibrationComplete s none).gazeBounds = s.gazeBounds) ∧
    (∀ (s : App) (bounds : Bounds),
      (handleGazeCalibrationComplete s (some bounds)).gazeBounds = some bounds ∧
      (handleGazeCalibrationComplete s (some bounds)).stepStatus.step4.status = .passed) ∧
    (∀ (es : List Event) (b : CalibrationBall),
      (run App.init es).ball = some b →
      b.currentIndex = CORNER_POSITIONS.length - 1 →
      (run App.init es).gazeBounds = none ∧
      (b.gazeSamplesRef.values = [] →
        (step (run App.init es) .dwellTimeout).stepStatus.step4.status = .failed ∧
        (step (run App.init es) .dwellTimeout).stepStatus.step4.error = some "No gaze data" ∧
        (step (run App.init es) .dwellTimeout).gazeBounds = none) ∧
      (b.gazeSamplesRef.values ≠ [] →
        ∃ bounds, computeBounds b.gazeSamplesRef.values = some bounds ∧
          (step (run App.init es) .dwellTimeout).gazeBounds = some bounds ∧
          (step (run App.init es) .dwellTimeout).stepStatus.step4.status = .passed)) := by
  refine ⟨?_, fun s => ⟨rfl, rfl, rfl⟩, fun s bounds => ⟨rfl, rfl⟩, ?_⟩
  · intro es hlast
    have hmem : ∀ t : Sample, t ∈ (CalibrationBall.mount.run es).gazeSamplesRef.values ↔
        BallEvent.collect (some t.x) (some t.y) ∈ es := by
      intro t
      rw [CalibrationBall.mem_values_run]
      simp [CalibrationBall.mount, SampleStore.values]
    simp only [CalibrationBall.dwellTimer, hlast, lt_irrefl, if_false, Option.some.injEq]
    constructor
    · intro hnone
      rintro ⟨x, y, hxy⟩
      have hne : (CalibrationBall.mount.run es).gazeSamplesRef.values ≠ [] :=
        List.ne_nil_of_mem ((hmem { x := x, y := y }).mpr hxy)
      obtain ⟨b, hb, _⟩ := computeBounds_spec _ hne
      rw [hb] at hnone
      exact absurd hnone (by simp)
    · intro hno
      have hnil : (CalibrationBall.mount.run es).gazeSamplesRef.values = [] := by
        apply List.eq_nil_iff_forall_not_mem.mpr
        intro t ht
        exact hno ⟨t.x, t.y, (hmem t).mp ht⟩
      rw [hnil]
      rfl
  · intro es b hb hlast
    have hinv := run_inv es App.init init_inv
    have hm := hinv.1 (by rw [hb]; rfl)
    simp only [App.ballMounted, Bool.and_eq_true, decide_eq_true_eq] at hm
    have hnone : (run App.init es).gazeBounds = none := by
      cases hg : (run App.init es).gazeBounds with
      | none => rfl
      | some g =>
        have := (hinv.2 (by rw [hg]; rfl)).2
        rw [hm.1.2] at this
        exact absurd this (by decide)
    have hstep : step (run App.init es) .dwellTimeout =
        effects (run App.init es) (handleGazeCalibrationComplete (run App.init es)
          (computeBounds b.gazeSamplesRef.values)) := by
      unfold step
      rw [show handle (run App.init es) .dwellTimeout = dwellTimeout (run App.init es) from rfl,
        dwellTimeout_last _ b hb hlast]
    have hf := effects_frame (run App.init es) (handleGazeCalibrationComplete (run App.init es)
          (computeBounds b.gazeSamplesRef.values))
    have hs := effects_stepStatus (run App.init es)
      (handleGazeCalibrationComplete (run App.init es) (computeBounds b.gazeSamplesRef.values))
    refine ⟨hnone, ?_, ?_⟩
    · intro hnil
      rw [hstep, hs.2.2.1, hf.2.1, hnil]
      exact ⟨rfl, rfl, hnone⟩
    · intro hne
      obtain ⟨bounds, hbd, _⟩ := computeBounds_spec _ hne
      refine ⟨bounds, hbd, ?_, ?_⟩
      · rw [hstep, hf.2.1, hbd]; rfl
      · rw [hstep, hs.2.2.1, hbd]; rfl

/-- Witness for C4: after four dwell timers without any defined gaze the
sequencer reports null, and the session that reached the last target without a
sample ends step 4 as failed with "No gaze data" and null bounds. -/
theorem step4_outcome_witness :
    (CalibrationBall.mount.run emptyExample).dwellTimer.2 = some none ∧
    (step (run App.init noGazeSession) .dwellTimeout).stepStatus.step4.status = .failed ∧
    (step (run App.init noGazeSession) .dwellTimeout).stepStatus.step4.error =
      some "No gaze data" ∧
    (step (run App.init noGazeSession) .dwellTimeout).gazeBounds = none :=
  ⟨((step4_outcome.1 emptyExample rfl).mpr (by simp [emptyExample])),
    (step4_outcome.2.2.2 noGazeSession { currentIndex := 4, gazeSamplesRef := [] }
      rfl rfl).2.1 rfl⟩

/-! ### Fullscreen proctor -/

/-- What a fullscreen-change notification does to the proctor fields when the
session is armed and fullscreen was left. -/
theorem step_fullscreenChange_armed (s : App) (h1 : 0 < s.calibrationStep)
    (h2 : s.calibrationComplete = false) :
    (step s (.fullscreenChange false)).violationCount = s.violationCount + 1 ∧
    (step s (.fullscreenChange false)).fullscreenViolation = true ∧
    (step s (.fullscreenChange false)).calibrationStep = s.calibrationStep ∧
    (step s (.fullscreenChange false)).calibrationComplete = s.calibrationComplete := by
  have hf := effects_frame s (handle s (.fullscreenChange false))
  unfold step
  rw [hf.2.2.2.2.2.1, hf.2.2.2.2.1, hf.1, hf.2.2.1]
  simp [handle, handleFullscreenChange, h1, h2]

/-- What a fullscreen-change notification does to the proctor fields when
fullscreen was entered or the session is not armed. -/
theorem step_fullscreenChange_other (s : App) (b : Bool)
    (h : b = true ∨ s.calibrationStep = 0 ∨ s.calibrationComplete = true) :
    (step s (.fullscreenChange b)).violationCount = s.violationCount ∧
    (step s (.fullscreenChange b)).fullscreenViolation = s.fullscreenViolation ∧
    (step s (.fullscreenChange b)).calibrationStep = s.calibrationStep ∧
    (step s (.fullscreenChange b)).calibrationComplete = s.calibrationComplete := by
  have hf := effects_frame s (handle s (.fullscreenChange b))
  unfold step
  rw [hf.2.2.2.2.2.1, hf.2.2.2.2.1, hf.1, hf.2.2.1]
  rcases h with h | h | h <;> simp [handle, handleFullscreenChange, h]

/-- What the return action does to the proctor fields. -/
theorem step_returnToFullscreen (s : App) :
    (step s .returnToFullscreen).violationCount = s.violationCount ∧
    (step s .returnToFullscreen).fullscreenViolation = false ∧
    (step s .returnToFullscreen).calibrationStep = s.calibrationStep ∧
    (step s .returnToFullscreen).calibrationComplete = s.calibrationComplete := by
  have hf := effects_frame s (handle s .returnToFullscreen)
  unfold step
  rw [hf.2.2.2.2.2.1, hf.2.2.2.2.1, hf.1, hf.2.2.1]
  exact ⟨rfl, rfl, rfl, rfl⟩

/-- Only a fullscreen-change notification writes the proctor fields
`violationCount` and (towards true) `fullscreenViolation`. -/
theorem handle_violation (s : App) (e : Event) (he : ∀ b, e ≠ .fullscreenChange b) :
    (handle s e).violationCount = s.violationCount ∧
    ((handle s e).fullscreenViolation = true → s.fullscreenViolation = true) := by
  cases e with
  | fullscreenChange b => exact absurd rfl (he b)
  | returnToFullscreen => exact ⟨rfl, fun h => by simp [handle, handleReturnToFullscreen] at h⟩
  | buttonClick =>
    simp only [handle, handleButtonClick, runStep1, runStep2]
    repeat' split
    all_goals exact ⟨rfl, id⟩
  | retry =>
    simp only [handle, handleRetry, runStep1, runStep2]
    repeat' split
    all_goals exact ⟨rfl, id⟩
  | checkTimeout =>
    simp only [handle, checkTimeout]
    split <;> exact ⟨rfl, id⟩
  | faceResults n fd => exact ⟨rfl, id⟩
  | dwellTimeout =>
    simp only [handle, dwellTimeout, handleGazeCalibrationComplete]
    repeat' split
    all_goals exact ⟨rfl, id⟩

/-- C5 fails on the code: in the armed session that already left fullscreen
once (violation flagged, count 1) a second not-fullscreen notification raises
the count to 2. -/
theorem fullscreen_exit_counted_again :
    0 < violatingState.calibrationStep ∧
    violatingState.calibrationComplete = false ∧
    violatingState.fullscreenViolation = true ∧
    violatingState.violationCount = 1 ∧
    (step violatingState (.fullscreenChange false)).violationCount = 2 ∧
    (step violatingState (.fullscreenChange false)).violationCount ≠
      violatingState.violationCount := by
  decide

/-- C5 as amended: in every armed session state, whether or not a violation is
already flagged, a not-fullscreen change notification sets
`fullscreenViolation` and increments `violationCount` by exactly 1, so two
consecutive exit notifications increment it by 2. -/
theorem fullscreen_exit_counts_each_event (s : App) (h1 : 0 < s.calibrationStep)
    (h2 : s.calibrationComplete = false) :
    (step s (.fullscreenChange false)).fullscreenViolation = true ∧
    (step s (.fullscreenChange false)).violationCount = s.violationCount + 1 ∧
    (run s [.fullscreenChange false, .fullscreenChange false]).violationCount =
      s.violationCount + 2 := by
  obtain ⟨a1, a2, a3, a4⟩ := step_fullscreenChange_armed s h1 h2
  refine ⟨a2, a1, ?_⟩
  have h1' : 0 < (step s (.fullscreenChange false)).calibrationStep := by rw [a3]; exact h1
  have h2' : (step s (.fullscreenChange false)).calibrationComplete = false := by
    rw [a4]; exact h2
  have c := step_fullscreenChange_armed _ h1' h2'
  simp only [run, List.foldl_cons, List.foldl_nil]
  rw [c.1, a1]

/-- Witness for the amended C5, at the session already in violation. -/
theorem fullscreen_exit_counts_each_event_witness :
    (step violatingState (.fullscreenChange false)).fullscreenViolation = true ∧
    (step violatingState (.fullscreenChange false)).violationCount =
      violatingState.violationCount + 1 ∧
    (run violatingState [.fullscreenChange false, .fullscreenChange false]).violationCount =
      violatingState.violationCount + 2 :=
  fullscreen_exit_counts_each_event violatingState (by decide) (by decide)

/-- C6: from every armed session state not in violation, the events
exit notification, return action with its now-fullscreen notification (in
either order), exit notification increase `violationCount` by exactly 2 and end
with `fullscreenViolation` true. -/
theorem exit_return_exit (s : App) (h1 : 0 < s.calibrationStep)
    (h2 : s.calibrationComplete = false) (_h3 : s.fullscreenViolation = false) :
    ((run s [.fullscreenChange false, .fullscreenChange true, .returnToFullscreen,
        .fullscreenChange false]).violationCount = s.violationCount + 2 ∧
      (run s [.fullscreenChange false, .fullscreenChange true, .returnToFullscreen,
        .fullscreenChange false]).fullscreenViolation = true) ∧
    ((run s [.fullscreenChange false, .returnToFullscreen, .fullscreenChange true,
        .fullscreenChange false]).violationCount = s.violationCount + 2 ∧
      (run s [.fullscreenChange false, .returnToFullscreen, .fullscreenChange true,
        .fullscreenChange false]).fullscreenViolation = true) := by
  obtain ⟨a1, _, a3, a4⟩ := step_fullscreenChange_armed s h1 h2
  constructor
  · obtain ⟨b1, _, b3, b4⟩ :=
      step_fullscreenChange_other (step s (.fullscreenChange false)) true (Or.inl rfl)
    obtain ⟨c1, _, c3, c4⟩ :=
      step_returnToFullscreen (step (step s (.fullscreenChange false)) (.fullscreenChange true))
    have d := step_fullscreenChange_armed
      (step (step (step s (.fullscreenChange false)) (.fullscreenChange true))
        .returnToFullscreen)
      (by rw [c3, b3, a3]; exact h1) (by rw [c4, b4, a4]; exact h2)
    simp only [run, List.foldl_cons, List.foldl_nil]
    exact ⟨by rw [d.1, c1, b1, a1], d.2.1⟩
  · obtain ⟨b1, _, b3, b4⟩ := step_returnToFullscreen (step s (.fullscreenChange false))
    obtain ⟨c1, _, c3, c4⟩ :=
      step_fullscreenChange_other
        (step (step s (.fullscreenChange false)) .returnToFullscreen) true (Or.inl rfl)
    have d := step_fullscreenChange_armed
      (step (step (step s (.fullscreenChange false)) .returnToFullscreen)
        (.fullscreenChange true))
      (by rw [c3, b3, a3]; exact h1) (by rw [c4, b4, a4]; exact h2)
    simp only [run, List.foldl_cons, List.foldl_nil]
    exact ⟨by rw [d.1, c1, b1, a1], d.2.1⟩

/-- Witness for C6 at the session right after the start button. -/
theorem exit_return_exit_witness :
    ((run armedState [.fullscreenChange false, .fullscreenChange true, .returnToFullscreen,
        .fullscreenChange false]).violationCount = armedState.violationCount + 2 ∧
      (run armedState [.fullscreenChange false, .fullscreenChange true, .returnToFullscreen,
        .fullscreenChange false]).fullscreenViolation = true) ∧
    ((run armedState [.fullscreenChange false, .returnToFullscreen, .fullscreenChange true,
        .fullscreenChange false]).violationCount = armedState.violationCount + 2 ∧
      (run armedState [.fullscreenChange false, .returnToFullscreen, .fullscreenChange true,
        .fullscreenChange false]).fullscreenViolation = true) :=
  exit_return_exit armedState (by decide) (by decide) (by decide)

/-- C7: a fullscreen-change notification turns `fullscreenViolation` from false
to true only if at that moment `calibrationStep > 0` and `calibrationComplete`
is false (and then it is a not-fullscreen notification); a notification
received while `calibrationStep = 0` or after `calibrationComplete` leaves
`fullscreenViolation` and `violationCount` unchanged; and no other event of the
session turns `fullscreenViolation` from false to true. -/
theorem violation_only_when_armed (s : App) (b : Bool) :
    (s.fullscreenViolation = false →
      (step s (.fullscreenChange b)).fullscreenViolation = true →
      0 < s.calibrationStep ∧ s.calibrationComplete = false ∧ b = false) ∧
    ((s.calibrationStep = 0 ∨ s.calibrationComplete = true) →
      (step s (.fullscreenChange b)).fullscreenViolation = s.fullscreenViolation ∧
      (step s (.fullscreenChange b)).violationCount = s.violationCount) ∧
    (∀ e : Event, s.fullscreenViolation = false → (step s e).fullscreenViolation = true →
      e = .fullscreenChange false) := by
  have first : s.fullscreenViolation = false →
      (step s (.fullscreenChange b)).fullscreenViolation = true →
      0 < s.calibrationStep ∧ s.calibrationComplete = false ∧ b = false := by
    intro hv hv'
    by_cases hb : b = true
    · rw [(step_fullscreenChange_other s b (Or.inl hb)).2.1, hv] at hv'
      exact absurd hv' (by decide)
    · by_cases h0 : s.calibrationStep = 0
      · rw [(step_fullscreenChange_other s b (Or.inr (Or.inl h0))).2.1, hv] at hv'
        exact absurd hv' (by decide)
      · by_cases hc : s.calibrationComplete = true
        · rw [(step_fullscreenChange_other s b (Or.inr (Or.inr hc))).2.1, hv] at hv'
          exact absurd hv' (by decide)
        · exact ⟨Nat.pos_of_ne_zero h0, by simpa using hc, by simpa using hb⟩
  refine ⟨first, ?_, ?_⟩
  · intro h
    have := step_fullscreenChange_other s b (Or.inr h)
    exact ⟨this.2.1, this.1⟩
  · intro e hv hv'
    by_cases he : ∀ c, e ≠ .fullscreenChange c
    · have hf := effects_frame s (handle s e)
      unfold step at hv'
      rw [hf.2.2.2.2.1] at hv'
      have := (handle_violation s e he).2 hv'
      rw [hv] at this
      exact absurd this (by decide)
    · push_neg at he
      obtain ⟨c, hc⟩ := he
      subst hc
      cases c with
      | false => rfl
      | true =>
        rw [(step_fullscreenChange_other s true (Or.inl rfl)).2.1, hv] at hv'
        exact absurd hv' (by decide)

/-- Witness for C7: the armed session is flagged by an exit, the session that
has not started is not. -/
theorem violation_only_when_armed_witness :
    (0 < armedState.calibrationStep ∧ armedState.calibrationComplete = false ∧
      false = false) ∧
    ((step App.init (.fullscreenChange false)).fullscreenViolation =
        App.init.fullscreenViolation ∧
      (step App.init (.fullscreenChange false)).violationCount = App.init.violationCount) :=
  ⟨(violation_only_when_armed armedState false).1 (by decide) (by decide),
    (violation_only_when_armed App.init false).2.1 (Or.inl rfl)⟩

/-- The violation count never decreases under a handler. -/
theorem handle_violationCount_le (s : App) (e : Event) :
    s.violationCount ≤ (handle s e).violationCount := by
  by_cases he : ∀ c, e ≠ .fullscreenChange c
  · rw [(handle_violation s e he).1]
  · push_neg at he
    obtain ⟨c, hc⟩ := he
    subst hc
    simp only [handle, handleFullscreenChange]
    split
    · exact Nat.le_succ _
    · exact Nat.le_refl _

/-- The violation count never decreases under an event. -/
theorem step_violationCount_le (s : App) (e : Event) :
    s.violationCount ≤ (step s e).violationCount := by
  unfold step
  rw [(effects_frame s (handle s e)).2.2.2.2.2.1]
  exact handle_violationCount_le s e

/-- The direction effect neither reads nor writes the out-of-bounds flag, the
violation flag and the sequencer. -/
theorem step3DirectionEffect_congr (s : App) (oob fv : Bool) (ball : Option CalibrationBall) :
    step3DirectionEffect
        { s with isOutOfBounds := oob, fullscreenViolation := fv, ball := ball } =
      { step3DirectionEffect s with
        isOutOfBounds := oob, fullscreenViolation := fv, ball := ball } := by
  obtain ⟨step, ⟨s1, s2, s3, s4⟩, gb, oob0, cc, fs, fv0, vc, fd, fc, tm, ball0⟩ := s
  by_cases h3 : step = 3
  · cases fd with
    | none => simp only [step3DirectionEffect, h3, ↓reduceIte]
    | some f =>
      by_cases hc : (DIRECTIONS.contains f.headPose.direction &&
          !s3.directions.get f.headPose.direction) = true
      · simp only [step3DirectionEffect, h3, hc, ↓reduceIte]
      · simp only [step3DirectionEffect, h3, hc, ↓reduceIte, Bool.false_eq_true]
  · simp only [step3DirectionEffect, h3, ↓reduceIte]

/-- The completion effect neither reads nor writes the out-of-bounds flag, the
violation flag and the sequencer. -/
theorem step3CompleteEffect_congr (s : App) (oob fv : Bool) (ball : Option CalibrationBall) :
    step3CompleteEffect
        { s with isOutOfBounds := oob, fullscreenViolation := fv, ball := ball } =
      { step3CompleteEffect s with
        isOutOfBounds := oob, fullscreenViolation := fv, ball := ball } := by
  obtain ⟨step, ⟨s1, s2, s3, s4⟩, gb, oob0, cc, fs, fv0, vc, fd, fc, tm, ball0⟩ := s
  by_cases h3 : step = 3
  · by_cases hc : ((DIRECTIONS.all fun d => s3.directions.get d) &&
        decide (s3.status ≠ .passed)) = true
    · simp only [step3CompleteEffect, h3, hc, ↓reduceIte]
    · simp only [step3CompleteEffect, h3, hc, ↓reduceIte, Bool.false_eq_true]
  · simp only [step3CompleteEffect, h3, ↓reduceIte]

/-- The step 3 effects neither read nor write the out-of-bounds flag, the
violation flag and the sequencer. -/
theorem step3Effects_congr (s : App) (oob fv : Bool) (ball : Option CalibrationBall) :
    step3CompleteEffect (step3DirectionEffect
        { s with isOutOfBounds := oob, fullscreenViolation := fv, ball := ball }) =
      { step3CompleteEffect (step3DirectionEffect s) with
        isOutOfBounds := oob, fullscreenViolation := fv, ball := ball } := by
  rw [step3DirectionEffect_congr, step3CompleteEffect_congr]

/-- A direction of `DIRECTIONS` reads as true once written. -/
theorem Directions.get_setTrue (d : Directions) (dir : Direction)
    (h : DIRECTIONS.contains dir = true) : (d.setTrue dir).get dir = true := by
  cases dir <;> first | rfl | (exact absurd h (by decide))

/-- The direction effect is idempotent. -/
theorem step3DirectionEffect_idem (s : App) :
    step3DirectionEffect (step3DirectionEffect s) = step3DirectionEffect s := by
  obtain ⟨step, ⟨s1, s2, s3, s4⟩, gb, oob0, cc, fs, fv0, vc, fd, fc, tm, ball0⟩ := s
  by_cases h3 : step = 3
  · cases fd with
    | none => simp only [step3DirectionEffect, h3, ↓reduceIte]
    | some f =>
      by_cases hc : (DIRECTIONS.contains f.headPose.direction &&
          !s3.directions.get f.headPose.direction) = true
      · have hin : DIRECTIONS.contains f.headPose.direction = true := by
          simp only [Bool.and_eq_true] at hc
          exact hc.1
        have hg := Directions.get_setTrue s3.directions f.headPose.direction hin
        simp only [step3DirectionEffect, h3, hc, ↓reduceIte, hg, Bool.not_true,
          Bool.and_false, Bool.false_eq_true]
      · simp only [step3DirectionEffect, h3, hc, ↓reduceIte, Bool.false_eq_true]
  · simp only [step3DirectionEffect, h3, ↓reduceIte]

/-- The completion effect writes the status of step 3 only. -/
theorem step3CompleteEffect_status (s : App) :
    ∃ st, step3CompleteEffect s = s.withStep3Status st := by
  obtain ⟨step, ⟨s1, s2, ⟨st0, dirs⟩, s4⟩, gb, oob0, cc, fs, fv0, vc, fd, fc, tm, ball0⟩ := s
  simp only [step3CompleteEffect]
  repeat' split
  all_goals exact ⟨_, rfl⟩

/-- The direction effect neither reads nor writes the status of step 3. -/
theorem step3DirectionEffect_status (s : App) (st : Status) :
    step3DirectionEffect (s.withStep3Status st) =
      (step3DirectionEffect s).withStep3Status st := by
  obtain ⟨step, ⟨s1, s2, ⟨st0, dirs⟩, s4⟩, gb, oob0, cc, fs, fv0, vc, fd, fc, tm, ball0⟩ := s
  by_cases h3 : step = 3
  · cases fd with
    | none => simp only [step3DirectionEffect, App.withStep3Status, h3, ↓reduceIte]
    | some f =>
      by_cases hc : (DIRECTIONS.contains f.headPose.direction &&
          !dirs.get f.headPose.direction) = true
      · simp only [step3DirectionEffect, App.withStep3Status, h3, hc, ↓reduceIte]
      · simp only [step3DirectionEffect, App.withStep3Status, h3, hc, ↓reduceIte,
          Bool.false_eq_true]
  · simp only [step3DirectionEffect, App.withStep3Status, h3, ↓reduceIte]

/-- The completion effect is idempotent. -/
theorem step3CompleteEffect_idem (s : App) :
    step3CompleteEffect (step3CompleteEffect s) = step3CompleteEffect s := by
  obtain ⟨step, ⟨s1, s2, ⟨st0, dirs⟩, s4⟩, gb, oob0, cc, fs, fv0, vc, fd, fc, tm, ball0⟩ := s
  by_cases h3 : step = 3
  · by_cases hc : ((DIRECTIONS.all fun d => dirs.get d) &&
        decide (st0 ≠ .passed)) = true
    · simp only [step3CompleteEffect, h3, hc, ↓reduceIte, ne_eq, not_true_eq_false,
        decide_False, Bool.and_false, Bool.false_eq_true]
    · simp only [step3CompleteEffect, h3, hc, ↓reduceIte, Bool.false_eq_true]
  · simp only [step3CompleteEffect, h3, ↓reduceIte]

/-- Running the step 3 effects twice is running them once. -/
theorem step3Effects_idem (s : App) :
    step3CompleteEffect (step3DirectionEffect (step3CompleteEffect (step3DirectionEffect s))) =
      step3CompleteEffect (step3DirectionEffect s) := by
  obtain ⟨st, hst⟩ := step3CompleteEffect_status (step3DirectionEffect s)
  have h : step3DirectionEffect (step3CompleteEffect (step3DirectionEffect s)) =
      step3CompleteEffect (step3DirectionEffect s) := by
    rw [hst, step3DirectionEffect_status, step3DirectionEffect_idem]
  rw [h, step3CompleteEffect_idem]

/-- After every event the step 3 effects have nothing left to do. -/
theorem step_settled (s : App) (e : Event) : (step s e).settled := by
  unfold App.settled step effects
  obtain ⟨b4, h4⟩ := renderBall_eq s
    (gazeMonitorEffect (step3CompleteEffect (step3DirectionEffect (handle s e))))
  obtain ⟨b3, h3⟩ :=
    gazeMonitorEffect_eq (step3CompleteEffect (step3DirectionEffect (handle s e)))
  rw [h4, h3]
  have := step3Effects_congr (step3CompleteEffect (step3DirectionEffect (handle s e))) b3
    (step3CompleteEffect (step3DirectionEffect (handle s e))).fullscreenViolation b4
  rw [step3Effects_idem] at this
  exact this

/-- The status entries after the effects are those the step 3 effects leave. -/
theorem effects_stepStatus_eq (prev s : App) :
    (effects prev s).stepStatus =
      (step3CompleteEffect (step3DirectionEffect s)).stepStatus := by
  unfold effects
  obtain ⟨b4, h4⟩ :=
    renderBall_eq prev (gazeMonitorEffect (step3CompleteEffect (step3DirectionEffect s)))
  obtain ⟨b3, h3⟩ := gazeMonitorEffect_eq (step3CompleteEffect (step3DirectionEffect s))
  rw [h4, h3]

/-- C8: the return action sets `fullscreenViolation` to false and leaves
`violationCount`, `calibrationStep`, `stepStatus`, `gazeBounds` and
`calibrationComplete` unchanged, as a handler on every state and as an event
(handler and effects) on every state the effects have settled; and no event, and
no sequence of events, of the session decreases `violationCount`. -/
theorem returnToFullscreen_frame :
    (∀ s : App,
      (handleReturnToFullscreen s).fullscreenViolation = false ∧
      (handleReturnToFullscreen s).violationCount = s.violationCount ∧
      (handleReturnToFullscreen s).calibrationStep = s.calibrationStep ∧
      (handleReturnToFullscreen s).stepStatus = s.stepStatus ∧
      (handleReturnToFullscreen s).gazeBounds = s.gazeBounds ∧
      (handleReturnToFullscreen s).calibrationComplete = s.calibrationComplete) ∧
    (∀ s : App, s.settled →
      (step s .returnToFullscreen).fullscreenViolation = false ∧
      (step s .returnToFullscreen).violationCount = s.violationCount ∧
      (step s .returnToFullscreen).calibrationStep = s.calibrationStep ∧
      (step s .returnToFullscreen).stepStatus = s.stepStatus ∧
      (step s .returnToFullscreen).gazeBounds = s.gazeBounds ∧
      (step s .returnToFullscreen).calibrationComplete = s.calibrationComplete) ∧
    (∀ (s : App) (e : Event), s.violationCount ≤ (step s e).violationCount) ∧
    (∀ (s : App) (es : List Event), s.violationCount ≤ (run s es).violationCount) := by
  refine ⟨fun s => ⟨rfl, rfl, rfl, rfl, rfl, rfl⟩, ?_, step_violationCount_le, ?_⟩
  · intro s hs
    obtain ⟨a1, a2, a3, a4⟩ := step_returnToFullscreen s
    have hf := effects_frame s (handle s .returnToFullscreen)
    refine ⟨a2, a1, a3, ?_, ?_, a4⟩
    · unfold step
      rw [effects_stepStatus_eq]
      have := step3Effects_congr s s.isOutOfBounds false s.ball
      unfold App.settled at hs
      rw [hs] at this
      show (step3CompleteEffect (step3DirectionEffect
        { s with isOutOfBounds := s.isOutOfBounds, fullscreenViolation := false,
                 ball := s.ball })).stepStatus = _
      rw [this]
    · unfold step
      rw [hf.2.1]
      rfl
  · intro s es
    induction es generalizing s with
    | nil => exact Nat.le_refl _
    | cons e es ih =>
      simp only [run, List.foldl_cons]
      exact Nat.le_trans (step_violationCount_le s e) (ih (step s e))

/-- Witness for C8: the return action on the session in violation. -/
theorem returnToFullscreen_frame_witness :
    (step violatingState .returnToFullscreen).fullscreenViolation = false ∧
    (step violatingState .returnToFullscreen).violationCount = violatingState.violationCount ∧
    (step violatingState .returnToFullscreen).calibrationStep =
      violatingState.calibrationStep ∧
    (step violatingState .returnToFullscreen).stepStatus = violatingState.stepStatus ∧
    (step violatingState .returnToFullscreen).gazeBounds = violatingState.gazeBounds ∧
    (step violatingState .returnToFullscreen).calibrationComplete =
      violatingState.calibrationComplete :=
  returnToFullscreen_frame.2.1 violatingState
    (step_settled armedState (.fullscreenChange false))

/-! ### Step 3: head sweep -/

/-- The gaze monitor is idempotent and does not depend on the sequencer. -/
theorem gazeMonitorEffect_stable (s : App) (ball : Option CalibrationBall) :
    gazeMonitorEffect { gazeMonitorEffect s with ball := ball } =
      { gazeMonitorEffect s with ball := ball } := by
  obtain ⟨step, ss, gb, oob0, cc, fs, fv0, vc, fd, fc, tm, ball0⟩ := s
  cases cc with
  | false => simp [gazeMonitorEffect]
  | true =>
    cases gb with
    | none => simp [gazeMonitorEffect]
    | some g =>
      cases fd with
      | none => simp [gazeMonitorEffect]
      | some f => simp [gazeMonitorEffect]

/-- Rendering the sequencer again without any change does nothing. -/
theorem renderBall_stable (prev s : App) :
    renderBall (renderBall prev s) (renderBall prev s) = renderBall prev s := by
  obtain ⟨step, ss, gb, oob0, cc, fs, fv0, vc, fd, fc, tm, ball0⟩ := s
  by_cases hm : App.ballMounted
      { calibrationStep := step, stepStatus := ss, gazeBounds := gb, isOutOfBounds := oob0,
        calibrationComplete := cc, isFullscreen := fs, fullscreenViolation := fv0,
        violationCount := vc, faceData := fd, faceCount := fc, timers := tm,
        ball := ball0 } = true
  · have hm' : ∀ b : Option CalibrationBall, App.ballMounted
        { calibrationStep := step, stepStatus := ss, gazeBounds := gb, isOutOfBounds := oob0,
          calibrationComplete := cc, isFullscreen := fs, fullscreenViolation := fv0,
          violationCount := vc, faceData := fd, faceCount := fc, timers := tm,
          ball := b } = true := fun _ => hm
    cases ball0 with
    | none => simp [renderBall, hm']
    | some b =>
      by_cases hc : App.gazeX
          { calibrationStep := step, stepStatus := ss, gazeBounds := gb, isOutOfBounds := oob0,
            calibrationComplete := cc, isFullscreen := fs, fullscreenViolation := fv0,
            violationCount := vc, faceData := fd, faceCount := fc, timers := tm,
            ball := some b } ≠ prev.gazeX ∨
          App.gazeY
          { calibrationStep := step, stepStatus := ss, gazeBounds := gb, isOutOfBounds := oob0,
            calibrationComplete := cc, isFullscreen := fs, fullscreenViolation := fv0,
            violationCount := vc, faceData := fd, faceCount := fc, timers := tm,
            ball := some b } ≠ prev.gazeY
      · simp [renderBall, hm', hc]
      · simp [renderBall, hm', hc]
  · have hm' : ∀ b : Option CalibrationBall, App.ballMounted
        { calibrationStep := step, stepStatus := ss, gazeBounds := gb, isOutOfBounds := oob0,
          calibrationComplete := cc, isFullscreen := fs, fullscreenViolation := fv0,
          violationCount := vc, faceData := fd, faceCount := fc, timers := tm,
          ball := b } = false := fun _ => by simpa using hm
    simp [renderBall, hm']

/-- After the effects the step 3 effects have nothing left to do. -/
theorem effects_settled (prev s : App) : (effects prev s).settled := by
  unfold App.settled effects
  obtain ⟨b4, h4⟩ := renderBall_eq prev
    (gazeMonitorEffect (step3CompleteEffect (step3DirectionEffect s)))
  obtain ⟨b3, h3⟩ :=
    gazeMonitorEffect_eq (step3CompleteEffect (step3DirectionEffect s))
  rw [h4, h3]
  have := step3Effects_congr (step3CompleteEffect (step3DirectionEffect s)) b3
    (step3CompleteEffect (step3DirectionEffect s)).fullscreenViolation b4
  rw [step3Effects_idem] at this
  exact this

/-- Running the effects again without any change does nothing. -/
theorem effects_stable (prev s : App) : (effects prev s).stable := by
  have hset : step3CompleteEffect (step3DirectionEffect (effects prev s)) = effects prev s :=
    effects_settled prev s
  have hg : gazeMonitorEffect (effects prev s) = effects prev s := by
    obtain ⟨b4, h4⟩ := renderBall_eq prev
      (gazeMonitorEffect (step3CompleteEffect (step3DirectionEffect s)))
    unfold effects
    rw [h4]
    exact gazeMonitorEffect_stable _ b4
  unfold App.stable
  have hunf : effects (effects prev s) (effects prev s) =
      renderBall (effects prev s) (gazeMonitorEffect
        (step3CompleteEffect (step3DirectionEffect (effects prev s)))) := rfl
  rw [hunf, hset, hg]
  exact renderBall_stable prev _

/-- Every state reached by an event is left as it is by the effects. -/
theorem step_stable (s : App) (e : Event) : (step s e).stable :=
  effects_stable s (handle s e)

/-- C10: the main-button action changes `calibrationStep` only by +1, and does
so exactly when `calibrationStep = 0` or the active step's status is passed and
`calibrationStep < 4`; when the active step (1..4) is not passed the action
leaves the whole session state unchanged, as a handler on every state and as an
event on every state the effects have settled; entering step 4 sets the status
of step 4 to checking; and advancing from a passed step 4 sets
`calibrationComplete` to true without changing `calibrationStep`. -/
theorem handleButtonClick_advance (s : App) :
    ((step s .buttonClick).calibrationStep = (handleButtonClick s).calibrationStep ∧
      (step s .buttonClick).calibrationComplete = (handleButtonClick s).calibrationComplete ∧
      (step s .buttonClick).stepStatus.step4 = (handleButtonClick s).stepStatus.step4) ∧
    ((handleButtonClick s).calibrationStep = s.calibrationStep ∨
      (handleButtonClick s).calibrationStep = s.calibrationStep + 1) ∧
    ((handleButtonClick s).calibrationStep = s.calibrationStep + 1 ↔
      (s.calibrationStep = 0 ∨
        (s.stepStatus.statusAt s.calibrationStep = some .passed ∧ s.calibrationStep < 4))) ∧
    (1 ≤ s.calibrationStep → s.calibrationStep ≤ 4 →
      s.stepStatus.statusAt s.calibrationStep ≠ some .passed →
      handleButtonClick s = s ∧ (s.stable → step s .buttonClick = s)) ∧
    (s.calibrationStep = 3 → s.stepStatus.step3.status = .passed →
      (handleButtonClick s).calibrationStep = 4 ∧
      (handleButtonClick s).stepStatus.step4.status = .checking) ∧
    (s.calibrationStep = 4 → s.stepStatus.step4.status = .passed →
      (handleButtonClick s).calibrationComplete = true ∧
      (handleButtonClick s).calibrationStep = 4) := by
  have hf := effects_frame s (handle s .buttonClick)
  have hs := effects_stepStatus s (handle s .buttonClick)
  refine ⟨⟨hf.1, hf.2.2.1, hs.2.2.1⟩, ?_, ?_, ?_, ?_, ?_⟩
  · simp only [handleButtonClick, runStep1, runStep2]
    repeat' split
    all_goals first | (left; rfl) | (right; rfl) | (right; simp only; omega)
  · constructor
    · intro h
      by_cases h0 : s.calibrationStep = 0
      · exact Or.inl h0
      · right
        by_cases hp : s.stepStatus.statusAt s.calibrationStep = some .passed
        · refine ⟨hp, ?_⟩
          by_contra h4
          simp [handleButtonClick, h0, hp, h4] at h
        · simp [handleButtonClick, h0, hp] at h
    · rintro (h0 | ⟨hp, h4⟩)
      · simp [handleButtonClick, runStep1, h0]
      · by_cases h0 : s.calibrationStep = 0
        · simp [handleButtonClick, runStep1, h0]
        · simp only [handleButtonClick, runStep2, h0, hp, h4, ↓reduceIte]
          repeat' split
          all_goals rfl
  · intro h1 h4 hp
    have h0 : s.calibrationStep ≠ 0 := by omega
    have he : handleButtonClick s = s := by
      simp only [handleButtonClick, h0, hp, ↓reduceIte]
    refine ⟨he, fun hst => ?_⟩
    unfold step
    rw [show handle s .buttonClick = handleButtonClick s from rfl, he]
    exact hst
  · intro h3 hp
    obtain ⟨step, ⟨s1, s2, s3, s4⟩, gb, oob0, cc, fs, fv0, vc, fd, fc, tm, ball0⟩ := s
    simp only at h3 hp
    subst h3
    simp [handleButtonClick, StepStatus.statusAt, hp]
  · intro h4 hp
    obtain ⟨step, ⟨s1, s2, s3, s4⟩, gb, oob0, cc, fs, fv0, vc, fd, fc, tm, ball0⟩ := s
    simp only at h4 hp
    subst h4
    simp [handleButtonClick, StepStatus.statusAt, hp]

/-- Witness for C10: the click at a passed step 3 enters step 4 with status
checking, the click at a passed step 4 completes the calibration, and the click
while step 1 is still being checked changes nothing. -/
theorem handleButtonClick_advance_witness :
    ((handleButtonClick step3PassedState).calibrationStep = 4 ∧
      (handleButtonClick step3PassedState).stepStatus.step4.status = .checking) ∧
    ((handleButtonClick step4PassedState).calibrationComplete = true ∧
      (handleButtonClick step4PassedState).calibrationStep = 4) ∧
    (handleButtonClick armedState = armedState ∧ step armedState .buttonClick = armedState) :=
  ⟨(handleButtonClick_advance step3PassedState).2.2.2.2.1 (by decide) (by decide),
    (handleButtonClick_advance step4PassedState).2.2.2.2.2 rfl rfl,
    ((handleButtonClick_advance armedState).2.2.2.1 (by decide) (by decide) (by decide)).1,
    ((handleButtonClick_advance armedState).2.2.2.1 (by decide) (by decide) (by decide)).2
      (step_stable App.init .buttonClick)⟩

/-! ### Timed checks of steps 1 and 2 -/

/-- Observations leave the pending timers, the step and the status entries of
steps 1 and 2 alone. -/
theorem run_observations_frame (obs : List (Nat × Option FaceData)) (s : App) :
    (run s (observations obs)).timers = s.timers ∧
    (run s (observations obs)).calibrationStep = s.calibrationStep ∧
    (run s (observations obs)).stepStatus.step1 = s.stepStatus.step1 ∧
    (run s (observations obs)).stepStatus.step2 = s.stepStatus.step2 := by
  induction obs generalizing s with
  | nil => exact ⟨rfl, rfl, rfl, rfl⟩
  | cons o obs ih =>
    have hrun : run s (observations (o :: obs)) =
        run (step s (.faceResults o.1 o.2)) (observations obs) := by
      simp only [run, observations, List.map_cons, List.foldl_cons]
    obtain ⟨i1, i2, i3, i4⟩ := ih (step s (.faceResults o.1 o.2))
    have hf := effects_frame s (handle s (.faceResults o.1 o.2))
    have hs := effects_stepStatus s (handle s (.faceResults o.1 o.2))
    rw [hrun, i1, i2, i3, i4]
    unfold step
    rw [hf.2.2.2.2.2.2.2.2, hf.1, hs.1, hs.2.1]
    exact ⟨rfl, rfl, rfl, rfl⟩

/-- The outcome of the step 1 check started by the start button is fixed by
the face data of the click: whatever is observed between the click and the
timer, step 1 passes exactly when face data was present at the click. -/
theorem begin_outcome_of_click (s : App) (obs : List (Nat × Option FaceData))
    (h0 : s.calibrationStep = 0) (ht : s.timers = []) :
    ((run s (.buttonClick :: (observations obs ++ [.checkTimeout]))).stepStatus.step1.status =
      .passed ↔ s.faceData ≠ none) ∧
    ((run s (.buttonClick :: (observations obs ++ [.checkTimeout]))).stepStatus.step1.status =
      .failed ↔ s.faceData = none) := by
  have hclick : handle s .buttonClick = runStep1 { s with calibrationStep := 1 } := by
    simp [handle, handleButtonClick, h0]
  have hf := effects_frame s (handle s .buttonClick)
  have hs := effects_stepStatus s (handle s .buttonClick)
  have htm : (step s .buttonClick).timers = [Timer.step1 s.faceData] := by
    unfold step
    rw [hf.2.2.2.2.2.2.2.2, hclick]
    simp [runStep1, ht]
  obtain ⟨o1, o2, o3, o4⟩ := run_observations_frame obs (step s .buttonClick)
  have hrun : run s (.buttonClick :: (observations obs ++ [.checkTimeout])) =
      step (run (step s .buttonClick) (observations obs)) .checkTimeout := by
    simp only [run, List.foldl_cons, List.foldl_append, List.foldl_nil]
  have key : ∀ t : App, t.timers = [Timer.step1 s.faceData] →
      ((step t .checkTimeout).stepStatus.step1.status = .passed ↔ s.faceData ≠ none) ∧
      ((step t .checkTimeout).stepStatus.step1.status = .failed ↔ s.faceData = none) := by
    intro t htt
    have hs2 := effects_stepStatus t (handle t .checkTimeout)
    have hfire : (handle t .checkTimeout).stepStatus =
        (Timer.step1 s.faceData).fire t.stepStatus := by
      simp only [handle, checkTimeout, htt]
    show ((effects t (handle t .checkTimeout)).stepStatus.step1.status = .passed ↔ _) ∧
      ((effects t (handle t .checkTimeout)).stepStatus.step1.status = .failed ↔ _)
    rw [hs2.1, hfire]
    cases hfd : s.faceData with
    | none => simp [Timer.fire]
    | some fd => simp [Timer.fire]
  rw [hrun]
  exact key _ (by rw [o1, htm])

/-- C11, the code at the failing inputs: the timer callbacks of `runStep1` and `runStep2` use
the `faceData` and `faceCount` their closure captured when the check was
started.  With no face at the start click and a face present when the timer
fires, step 1 fails with "No face detected"; with a face at the click and none at
the timer, step 1 passes; a step 2 check started while two faces were counted
fails with "Detected 2 faces" although one face is counted when the timer
fires; and a retry clicked without a face fails although a face is present when
its timer fires. -/
theorem check_outcome_follows_click :
    ((run App.init lateFaceSession).faceData ≠ none ∧
      (run App.init lateFaceSession).stepStatus.step1 =
        { status := .failed, error := some "No face detected" }) ∧
    ((run App.init lostFaceSession).faceData = none ∧
      (run App.init lostFaceSession).stepStatus.step1.status = .passed) ∧
    ((run App.init lateSinglePersonSession).faceCount = 1 ∧
      (run App.init lateSinglePersonSession).stepStatus.step2 =
        { status := .failed, error := some "Detected 2 faces" }) ∧
    ((run App.init lateFaceRetrySession).faceData ≠ none ∧
      (run App.init lateFaceRetrySession).stepStatus.step1.status = .failed) := by
  refine ⟨⟨by decide, by decide⟩, ⟨by decide, by decide⟩, ⟨by decide, by decide⟩,
    ⟨by decide, by decide⟩⟩

/-- C12: when the timer of step 1 fires, the status of step 1 becomes passed if
the face data the timer evaluates is non-null and otherwise failed with the
error message "No face detected"; when the timer of step 2 fires, the status of
step 2 becomes passed if and only if the face count the timer evaluates is
exactly 1 (0 and every count from 2 on fail), and on failure the error message
is "Detected n faces" with n that count. -/
theorem check_timer_outcome (s : App) (rest : List Timer) :
    (∀ fd : Option FaceData, s.timers = .step1 fd :: rest →
      (fd ≠ none → (step s .checkTimeout).stepStatus.step1.status = .passed) ∧
      (fd = none →
        (step s .checkTimeout).stepStatus.step1.status = .failed ∧
        (step s .checkTimeout).stepStatus.step1.error = some "No face detected")) ∧
    (∀ n : Nat, s.timers = .step2 n :: rest →
      ((step s .checkTimeout).stepStatus.step2.status = .passed ↔ n = 1) ∧
      (n ≠ 1 →
        (step s .checkTimeout).stepStatus.step2.status = .failed ∧
        (step s .checkTimeout).stepStatus.step2.error =
          some ("Detected " ++ toString n ++ " faces")) ∧
      (n = 0 ∨ 2 ≤ n → (step s .checkTimeout).stepStatus.step2.status = .failed)) := by
  have hs := effects_stepStatus s (handle s .checkTimeout)
  unfold step
  rw [hs.1, hs.2.1]
  constructor
  · intro fd ht
    have hfire : (handle s .checkTimeout).stepStatus = (Timer.step1 fd).fire s.stepStatus := by
      simp only [handle, checkTimeout, ht]
    rw [hfire]
    cases fd with
    | none => simp [Timer.fire]
    | some f => simp [Timer.fire]
  · intro n ht
    have hfire : (handle s .checkTimeout).stepStatus = (Timer.step2 n).fire s.stepStatus := by
      simp only [handle, checkTimeout, ht]
    rw [hfire]
    by_cases h1 : n = 1
    · subst h1
      simp [Timer.fire]
    · have hfail : ((Timer.step2 n).fire s.stepStatus).step2 =
          { status := .failed, error := some ("Detected " ++ toString n ++ " faces") } := by
        simp only [Timer.fire, h1, ↓reduceIte]
      rw [hfail]
      simp [h1]

/-- Witness for C12: in the session whose start click saw no face the timer
fails step 1 with "No face detected", and the step 2 timer that evaluates two
faces fails with "Detected 2 faces". -/
theorem check_timer_outcome_witness :
    ((step (run App.init [.faceResults 0 none, .buttonClick]) .checkTimeout).stepStatus.step1.status
        = .failed ∧
      (step (run App.init [.faceResults 0 none, .buttonClick]) .checkTimeout).stepStatus.step1.error
        = some "No face detected") ∧
    ((step { App.init with timers := [.step2 2] } .checkTimeout).stepStatus.step2.status = .failed ∧
      (step { App.init with timers := [.step2 2] } .checkTimeout).stepStatus.step2.error =
        some ("Detected " ++ toString 2 ++ " faces")) :=
  ⟨((check_timer_outcome (run App.init [.faceResults 0 none, .buttonClick]) []).1 none
      (by decide)).2 rfl,
    ((check_timer_outcome { App.init with timers := [.step2 2] } []).2 2 rfl).2.1
      (by decide)⟩

/-! ### Calibration and monitor together -/

/-- C16: for every non-empty collection of gaze samples the bounds the sequencer
computes satisfy minX <= maxX and minY <= maxY, and every sample of the
collection, observed as the live gaze point by the gaze monitor of a completed
session holding those bounds, leaves `isOutOfBounds` false. -/
theorem calibration_monitor_consistent (allSamples : List Sample) (hne : allSamples ≠ []) :
    ∃ b, computeBounds allSamples = some b ∧ b.minX ≤ b.maxX ∧ b.minY ≤ b.maxY ∧
      ∀ t ∈ allSamples, ∀ (s : App) (faceCount : Nat) (fd : FaceData),
        s.calibrationComplete = true → s.gazeBounds = some b →
        fd.gaze = { gazeX := t.x, gazeY := t.y } →
        (step s (.faceResults faceCount (some fd))).isOutOfBounds = false := by
  obtain ⟨b, hb, hall, -⟩ := computeBounds_spec allSamples hne
  obtain ⟨t0, ht0⟩ := List.exists_mem_of_ne_nil allSamples hne
  obtain ⟨a1, a2, a3, a4⟩ := hall t0 ht0
  refine ⟨b, hb, le_trans a1 a2, le_trans a3 a4, ?_⟩
  intro t ht s faceCount fd hc hg hfd
  obtain ⟨c1, c2, c3, c4⟩ := hall t ht
  have key : (step s (.faceResults faceCount (some fd))).isOutOfBounds =
      (gazeMonitorEffect { s with faceCount := faceCount, faceData := some fd }).isOutOfBounds := by
    unfold step
    rw [effects_isOutOfBounds]
    rfl
  have hact := gazeMonitorEffect_active
    { s with faceCount := faceCount, faceData := some fd } b fd hc hg rfl
  rw [key, ← Bool.not_eq_true, hact, hfd]
  simp only [not_or, not_lt, gt_iff_lt]
  refine ⟨?_, ?_, ?_, ?_⟩ <;> norm_num <;> linarith

/-- Witness for C16 on three samples. -/
theorem calibration_monitor_consistent_witness :
    ∃ b, computeBounds threeSamples = some b ∧ b.minX ≤ b.maxX ∧ b.minY ≤ b.maxY ∧
      ∀ t ∈ threeSamples, ∀ (s : App) (faceCount : Nat) (fd : FaceData),
        s.calibrationComplete = true → s.gazeBounds = some b →
        fd.gaze = { gazeX := t.x, gazeY := t.y } →
        (step s (.faceResults faceCount (some fd))).isOutOfBounds = false :=
  calibration_monitor_consistent threeSamples (by simp [threeSamples])

/-! ### Mirror symmetry of the head pose -/

/-- The out-of-bounds flag plays no part in rendering the sequencer. -/
theorem renderBall_isOutOfBounds (prev s : App) (oob : Bool) :
    (renderBall prev { s with isOutOfBounds := oob }).ball = (renderBall prev s).ball := by
  obtain ⟨step, ss, gb, oob0, cc, fs, fv0, vc, fd, fc, tm, ball0⟩ := s
  by_cases hm : App.ballMounted
      { calibrationStep := step, stepStatus := ss, gazeBounds := gb, isOutOfBounds := oob0,
        calibrationComplete := cc, isFullscreen := fs, fullscreenViolation := fv0,
        violationCount := vc, faceData := fd, faceCount := fc, timers := tm,
        ball := ball0 } = true
  · have hm' : App.ballMounted
        { calibrationStep := step, stepStatus := ss, gazeBounds := gb, isOutOfBounds := oob,
          calibrationComplete := cc, isFullscreen := fs, fullscreenViolation := fv0,
          violationCount := vc, faceData := fd, faceCount := fc, timers := tm,
          ball := ball0 } = true := hm
    cases ball0 with
    | none => simp only [renderBall, hm, hm', ↓reduceIte]; rfl
    | some b =>
      by_cases hc : App.gazeX
          { calibrationStep := step, stepStatus := ss, gazeBounds := gb, isOutOfBounds := oob0,
            calibrationComplete := cc, isFullscreen := fs, fullscreenViolation := fv0,
            violationCount := vc, faceData := fd, faceCount := fc, timers := tm,
            ball := some b } ≠ prev.gazeX ∨
          App.gazeY
          { calibrationStep := step, stepStatus := ss, gazeBounds := gb, isOutOfBounds := oob0,
            calibrationComplete := cc, isFullscreen := fs, fullscreenViolation := fv0,
            violationCount := vc, faceData := fd, faceCount := fc, timers := tm,
            ball := some b } ≠ prev.gazeY
      · have hc' : App.gazeX
            { calibrationStep := step, stepStatus := ss, gazeBounds := gb, isOutOfBounds := oob,
              calibrationComplete := cc, isFullscreen := fs, fullscreenViolation := fv0,
              violationCount := vc, faceData := fd, faceCount := fc, timers := tm,
              ball := some b } ≠ prev.gazeX ∨
            App.gazeY
            { calibrationStep := step, stepStatus := ss, gazeBounds := gb, isOutOfBounds := oob,
              calibrationComplete := cc, isFullscreen := fs, fullscreenViolation := fv0,
              violationCount := vc, faceData := fd, faceCount := fc, timers := tm,
              ball := some b } ≠ prev.gazeY := hc
        simp only [renderBall, hm, hm', hc, hc', ↓reduceIte]
        rfl
      · have hc' : ¬ (App.gazeX
            { calibrationStep := step, stepStatus := ss, gazeBounds := gb, isOutOfBounds := oob,
              calibrationComplete := cc, isFullscreen := fs, fullscreenViolation := fv0,
              violationCount := vc, faceData := fd, faceCount := fc, timers := tm,
              ball := some b } ≠ prev.gazeX ∨
            App.gazeY
            { calibrationStep := step, stepStatus := ss, gazeBounds := gb, isOutOfBounds := oob,
              calibrationComplete := cc, isFullscreen := fs, fullscreenViolation := fv0,
              violationCount := vc, faceData := fd, faceCount := fc, timers := tm,
              ball := some b } ≠ prev.gazeY) := hc
        simp only [renderBall, hm, hm', hc, hc', ↓reduceIte]
  · have hm' : ¬ App.ballMounted
        { calibrationStep := step, stepStatus := ss, gazeBounds := gb, isOutOfBounds := oob,
          calibrationComplete := cc, isFullscreen := fs, fullscreenViolation := fv0,
          violationCount := vc, faceData := fd, faceCount := fc, timers := tm,
          ball := ball0 } = true := hm
    simp only [renderBall, hm, hm', ↓reduceIte, Bool.false_eq_true]

/-- Outside step 3 the sequencer after the effects is the one `renderBall`
leaves. -/
theorem effects_ball_eq (prev s : App) (h : s.calibrationStep ≠ 3) :
    (effects prev s).ball = (renderBall prev s).ball := by
  unfold effects
  rw [step3Effects_off s h]
  obtain ⟨b, hb⟩ := gazeMonitorEffect_eq s
  rw [hb]
  exact renderBall_isOutOfBounds prev s b

/-- An event after whose handler the mount condition fails leaves no sequencer. -/
theorem step_ball_unmounted (s : App) (e : Event) (h3 : (handle s e).calibrationStep ≠ 3)
    (hm : (handle s e).ballMounted = false) : (step s e).ball = none := by
  unfold step
  rw [effects_ball_eq _ _ h3]
  simp only [renderBall, hm, Bool.false_eq_true, ↓reduceIte]

/-- An event after whose handler the mount condition holds and no sequencer is
there mounts a fresh one, whose collecting effect runs once. -/
theorem step_ball_mounted (s : App) (e : Event) (h3 : (handle s e).calibrationStep ≠ 3)
    (hm : (handle s e).ballMounted = true) (hb : (handle s e).ball = none) :
    (step s e).ball =
      some (CalibrationBall.mount.collectSample (handle s e).gazeX (handle s e).gazeY) := by
  unfold step
  rw [effects_ball_eq _ _ h3]
  simp only [renderBall, hm, ↓reduceIte, hb]

/-- A freshly mounted sequencer shows the first target and holds at most the
one sample of its first collecting effect. -/
theorem mount_collectSample (gazeX gazeY : Option ℚ) :
    (CalibrationBall.mount.collectSample gazeX gazeY).currentIndex = 0 ∧
    (CalibrationBall.mount.collectSample gazeX gazeY).gazeSamplesRef.values.length ≤ 1 ∧
    (∀ t ∈ (CalibrationBall.mount.collectSample gazeX gazeY).gazeSamplesRef.values,
      gazeX = some t.x ∧ gazeY = some t.y) := by
  cases gazeX with
  | none => simp [CalibrationBall.collectSample, CalibrationBall.mount, SampleStore.values]
  | some x =>
    cases gazeY with
    | none => simp [CalibrationBall.collectSample, CalibrationBall.mount, SampleStore.values]
    | some y =>
      simp [CalibrationBall.collectSample, CalibrationBall.mount, SampleStore.values,
        SampleStore.set, SampleStore.get, CalibrationBall.currentPositionId,
        CORNER_POSITIONS]

/-- C15 fails on the code: `App` renders the sequencer only while no violation
is flagged, so a violation unmounts it and the return mounts a new one.  In the
example session the third target is showing and five samples are stored; the
exit leaves no sequencer; after the return the sequencer shows the first target
again and holds the one sample of the current gaze; and the bounds finally
reported are (0, 0, 0, 0), although the sample (1, 1) had been collected before
the violation (without the violation the bounds are (0, 1, 0, 1)). -/
theorem sequencer_reset_by_violation :
    ((run App.init gazeSession).ball.map (fun b => b.currentIndex) = some 2 ∧
      (run App.init gazeSession).ball.map (fun b => b.gazeSamplesRef.values) =
        some [⟨1, 1⟩, ⟨0, 1⟩, ⟨0, 1⟩, ⟨0, 0⟩, ⟨0, 0⟩]) ∧
    (run App.init (gazeSession ++ [.fullscreenChange false])).ball = none ∧
    (run App.init (gazeSession ++ [.fullscreenChange false, .returnToFullscreen])).ball =
      some { currentIndex := 0, gazeSamplesRef := [("center", [⟨0, 0⟩])] } ∧
    (run App.init (gazeSession ++ [.fullscreenChange false, .returnToFullscreen,
      .dwellTimeout, .dwellTimeout, .dwellTimeout, .dwellTimeout, .dwellTimeout])).gazeBounds =
      some { minX := 0, maxX := 0, minY := 0, maxY := 0 } ∧
    (run App.init (gazeSession ++ [.dwellTimeout, .dwellTimeout, .dwellTimeout])).gazeBounds =
      some { minX := 0, maxX := 1, minY := 0, maxY := 1 } := by
  refine ⟨⟨by decide, by decide⟩, by decide, by decide, by decide, by decide⟩

/-- C15 as amended: during step 4 (status checking, calibration not complete) a
fullscreen violation unmounts the sequencer, and the return action mounts a new
one: the target index restarts at 0 and the samples collected before the
violation are gone, the new sequencer holding at most the one sample of the gaze
current at the return; while a violation is flagged no sequencer is mounted and
a dwell timer does nothing. -/
theorem violation_resets_sequencer (s : App) (h4 : s.calibrationStep = 4)
    (hc : s.stepStatus.step4.status = .checking) (hcomp : s.calibrationComplete = false) :
    (step s (.fullscreenChange false)).ball = none ∧
    (step (step s (.fullscreenChange false)) .returnToFullscreen).ball =
      some (CalibrationBall.mount.collectSample s.gazeX s.gazeY) ∧
    (∀ b, (step (step s (.fullscreenChange false)) .returnToFullscreen).ball = some b →
      b.currentIndex = 0 ∧ b.gazeSamplesRef.values.length ≤ 1 ∧
      ∀ t ∈ b.gazeSamplesRef.values, s.gazeX = some t.x ∧ s.gazeY = some t.y) ∧
    (∀ (t : App) (e : Event), (step t e).fullscreenViolation = true →
      (step t e).ball = none ∧ dwellTimeout (step t e) = step t e) := by
  have hpos : 0 < s.calibrationStep := by omega
  obtain ⟨-, a2, a3, -⟩ := step_fullscreenChange_armed s hpos hcomp
  have hexit : (step s (.fullscreenChange false)).ball = none := by
    apply step_ball_unmounted
    · simp only [handle, handleFullscreenChange]
      split <;> (simp only; omega)
    · simp [handle, handleFullscreenChange, App.ballMounted, hpos, hcomp]
  have hstatus : (step s (.fullscreenChange false)).stepStatus.step4.status = .checking := by
    have hs := effects_stepStatus s (handle s (.fullscreenChange false))
    unfold step
    rw [hs.2.2.1]
    simp only [handle, handleFullscreenChange]
    split <;> exact hc
  have hface : (step s (.fullscreenChange false)).faceData = s.faceData := by
    have hf := effects_frame s (handle s (.fullscreenChange false))
    unfold step
    rw [hf.2.2.2.2.2.2.1]
    simp only [handle, handleFullscreenChange]
    split <;> rfl
  have hreturn : (step (step s (.fullscreenChange false)) .returnToFullscreen).ball =
      some (CalibrationBall.mount.collectSample s.gazeX s.gazeY) := by
    have hm := step_ball_mounted (step s (.fullscreenChange false)) .returnToFullscreen
      (by simp only [handle, handleReturnToFullscreen, a3, h4]; omega)
      (by simp [handle, handleReturnToFullscreen, App.ballMounted, a3, h4, hstatus])
      (by simp only [handle, handleReturnToFullscreen, hexit])
    rw [hm]
    simp only [handle, handleReturnToFullscreen, App.gazeX, App.gazeY, hface]
  refine ⟨hexit, hreturn, ?_, ?_⟩
  · intro b hb
    rw [hreturn] at hb
    have := mount_collectSample s.gazeX s.gazeY
    rw [Option.some.inj hb] at this
    exact this
  · intro t e hv
    have hnone : (step t e).ball = none := by
      cases hb : (step t e).ball with
      | none => rfl
      | some b =>
        have hm := effects_ball t (handle t e) (by
          show (step t e).ball.isSome = true
          rw [hb]; rfl)
        have hm' : (step t e).ballMounted = true := hm
        simp only [App.ballMounted, hv, Bool.not_true, Bool.and_false] at hm'
        exact absurd hm' (by decide)
    refine ⟨hnone, ?_⟩
    simp only [dwellTimeout, hnone]

/-- Witness for the amended C15 on the example session. -/
theorem violation_resets_sequencer_witness :
    (step (run App.init gazeSession) (.fullscreenChange false)).ball = none ∧
    (step (step (run App.init gazeSession) (.fullscreenChange false)) .returnToFullscreen).ball =
      some (CalibrationBall.mount.collectSample (run App.init gazeSession).gazeX
        (run App.init gazeSession).gazeY) :=
  ⟨(violation_resets_sequencer (run App.init gazeSession) (by decide) (by decide)
      (by decide)).1,
    (violation_resets_sequencer (run App.init gazeSession) (by decide) (by decide)
      (by decide)).2.1⟩

/-! ### Status edges -/

end Facecam
